import Mathlib

/-!
TickAggregator: a shallow embedding of `UTickAggregatorSubsystem`.

The development follows `Source/TickAggregator/Private/Core/TickAggregatorSubsystem.cpp`
and `Source/TickAggregator/Public/Core/TickAggregatorSubsystem.h`.

* Object pointers (`AActor*`) are `Option ActorId`; `none` is `nullptr`.
* The actors of the world live in a heap `ActorId → AActor`, which is part of the state, next
  to the members of the subsystem (four tick functions, four container sets).
* `TSet<FTickAggregateContainer>` is the list of its elements in iteration order; a pointer to
  an element is a table tag with a position.
* `checkNoEntry()` aborts when the build has `DO_CHECK` and does nothing otherwise; the build
  switch is the first argument of every function that can reach it.
* `float` delta times are only passed on, so they are values of an arbitrary type `F`; the
  `Tick` of an actor is a parameter of the `Tick_*` members, which return the state together
  with the list of calls they made.
-/

namespace TickAggregator

/-! ## Engine types used by the subsystem -/

/-- Modelled from the spec: the engine enumeration `ETickingGroup` (declared in the engine, not
in this repository). The spec names the four phases `TG_PrePhysics`, `TG_DuringPhysics`,
`TG_PostPhysics`, `TG_PostUpdateWork`; the `default:` branches of the source show the
enumeration has further values, which are the engine's remaining tick groups. -/
inductive ETickingGroup where
  | TG_PrePhysics
  | TG_StartPhysics
  | TG_DuringPhysics
  | TG_EndPhysics
  | TG_PostPhysics
  | TG_PostUpdateWork
  | TG_LastDemotable
  | TG_NewlySpawned
  | TG_MAX
  deriving DecidableEq, Repr

open ETickingGroup

/-- Names (`FName`) are compared for equality only. -/
abbrev FName := Nat

/-- The engine constant `NAME_None`. -/
def NAME_None : FName := 0

/-- Identity of an actor object (the address an `AActor*` holds). -/
abbrev ActorId := Nat

/-- An `AActor*`: `none` is `nullptr`. -/
abbrev AActorPtr := Option ActorId

/-- The fields of `AActor::PrimaryActorTick` the subsystem reads or writes, together with the
enabled state that `SetActorTickEnabled` toggles. -/
structure FActorTickFunction where
  TickGroup : ETickingGroup
  bCanEverTick : Bool
  bStartWithTickEnabled : Bool
  bTickEnabled : Bool
  deriving DecidableEq, Repr

/-- The part of an actor the subsystem touches: its class name (`GetClass()->GetFName()`), its
primary tick function, whether `OnActorEndPlay` of the subsystem is bound to `OnEndPlay`, and
the two answers the subsystem asks for when actors have been initialised: whether the actor
implements `UTickAggregatorRegisterInterface`, and whether one of its components does. -/
structure AActor where
  Class : FName
  PrimaryActorTick : FActorTickFunction
  bOnEndPlayBound : Bool
  bImplementsRegisterInterface : Bool
  bComponentImplementsRegisterInterface : Bool
  deriving DecidableEq, Repr

/-- Modelled from the spec: the engine method `AActor::SetActorTickEnabled`, which switches the
tick function of an actor that can ever tick. -/
def AActor.SetActorTickEnabled (a : AActor) (bEnabled : Bool) : AActor :=
  if a.PrimaryActorTick.bCanEverTick then
    { a with PrimaryActorTick := { a.PrimaryActorTick with bTickEnabled := bEnabled } }
  else a

/-- Both self-tick flags are set: the eligibility test of `RegisterActor`. -/
def AActor.eligible (a : AActor) : Bool :=
  a.PrimaryActorTick.bCanEverTick && a.PrimaryActorTick.bStartWithTickEnabled

/-! ## `FTickAggregateContainer` and sets of containers -/

/-- The struct `FTickAggregateContainer` with its default member initialisers. -/
structure FTickAggregateContainer where
  ActorClass : FName := NAME_None
  TickGroup : ETickingGroup := TG_PrePhysics
  Actors : List ActorId := []
  deriving DecidableEq, Repr

/-- The member `operator==` of `FTickAggregateContainer`. -/
def FTickAggregateContainer.opEq (a InRHS : FTickAggregateContainer) : Bool :=
  a.ActorClass == InRHS.ActorClass && a.TickGroup == InRHS.TickGroup

/-- The friend `GetTypeHash(const FTickAggregateContainer&)`; the hash of a name is the
engine's and is taken as a parameter. -/
def FTickAggregateContainer.GetTypeHash (hashName : FName → Nat)
    (InKey : FTickAggregateContainer) : Nat :=
  hashName InKey.ActorClass

/-- `TArray::Add`: append at the end. -/
def TArray.Add {α : Type} (xs : List α) (x : α) : List α := xs ++ [x]

/-- `TArray::Remove`: remove every element equal to `x`, keeping the order of the rest. -/
def TArray.Remove {α : Type} [DecidableEq α] (xs : List α) (x : α) : List α :=
  xs.filter (fun y => decide (y ≠ x))

/-- `TArray::Append`: append all elements of another array. -/
def TArray.Append {α : Type} (xs ys : List α) : List α := xs ++ ys

/-- A `TSet<FTickAggregateContainer>`: its elements in iteration order. Nothing in the
subsystem removes an element of a set, so the iteration order is the insertion order. -/
abbrev TSet := List FTickAggregateContainer

/-- `TSet::Find`: the position of the element that `operator==` matches with the key. -/
def TSet.Find : TSet → FTickAggregateContainer → Option Nat
  | [], _ => none
  | c :: cs, key => if c.opEq key then some 0 else (TSet.Find cs key).map Nat.succ

/-- Write through a pointer to an element of the set. -/
def TSet.modifyAt : TSet → Nat → (FTickAggregateContainer → FTickAggregateContainer) → TSet
  | [], _, _ => []
  | c :: cs, 0, f => f c :: cs
  | c :: cs, i + 1, f => c :: TSet.modifyAt cs i f

/-- `TSet::Add`: an element matching the new one is replaced in place, otherwise the new
element goes to the end. -/
def TSet.Add (t : TSet) (x : FTickAggregateContainer) : TSet :=
  match TSet.Find t x with
  | some i => TSet.modifyAt t i (fun _ => x)
  | none => t ++ [x]

/-! ## The subsystem and the world around it -/

/-- The four container sets of the subsystem. -/
inductive ETable where
  | PrePhysics
  | DuringPhysics
  | PostPhysics
  | PostUpdateWork
  deriving DecidableEq, Repr

/-- The tick group whose containers a set holds. -/
def ETable.group : ETable → ETickingGroup
  | .PrePhysics => TG_PrePhysics
  | .DuringPhysics => TG_DuringPhysics
  | .PostPhysics => TG_PostPhysics
  | .PostUpdateWork => TG_PostUpdateWork

/-- A `FTickAggregateContainer*` into one of the four sets. -/
structure ContainerPtr where
  Table : ETable
  Index : Nat
  deriving DecidableEq, Repr

/-- The closures that `RegisterTickFunctions` binds: each calls one `Tick_*` member. -/
inductive ETickClosure where
  | callTick_PrePhysics
  | callTick_DuringPhysics
  | callTick_PostPhysics
  | callTick_PostUpdateWork
  deriving DecidableEq, Repr

/-- The struct `FTickAggregatorTickFunction`: the flags its constructor sets, the tick group of
the base `FTickFunction`, the owner (`true` when non-null), the bound closure and whether the
function is registered with a level. -/
structure FTickAggregatorTickFunction where
  bCanEverTick : Bool := true
  bStartWithTickEnabled : Bool := true
  TickGroup : ETickingGroup := TG_PrePhysics
  Owner : Bool := false
  TickFunction : Option ETickClosure := none
  bRegistered : Bool := false
  deriving DecidableEq, Repr

/-- The world a subsystem belongs to: whether it has a current level, whether
`OnActorsFinishedInitialise` is bound to `OnActorsInitialized`, and the actor pointers an actor
iterator over the world yields. -/
structure UWorld where
  bHasCurrentLevel : Bool
  bOnActorsInitializedBound : Bool
  ActorPointers : List AActorPtr
  deriving DecidableEq, Repr

/-- Modelled from the spec: the engine enumeration `EWorldType::Type` (declared in the engine,
not in this repository). -/
inductive EWorldType where
  | None
  | Game
  | Editor
  | PIE
  | EditorPreview
  | GamePreview
  | GameRPC
  | Inactive
  deriving DecidableEq, Repr

/-- The state the subsystem works on: its own members (as declared in the header), the world
returned by `GetWorld()` and the actors that pointers refer to. -/
structure State where
  PrePhysicsTickFunction : FTickAggregatorTickFunction := {}
  DuringPhysicsTickFunction : FTickAggregatorTickFunction := {}
  PostPhysicsTickFunction : FTickAggregatorTickFunction := {}
  PostUpdateWorkTickFunction : FTickAggregatorTickFunction := {}
  PrePhysicsContainers : TSet := []
  DuringPhysicsContainers : TSet := []
  PostPhysicsContainers : TSet := []
  PostUpdateWorkContainers : TSet := []
  bIsTemplate : Bool := false
  World : Option UWorld := none
  Actors : ActorId → AActor

/-- The set a table tag stands for. -/
def State.table (s : State) : ETable → TSet
  | .PrePhysics => s.PrePhysicsContainers
  | .DuringPhysics => s.DuringPhysicsContainers
  | .PostPhysics => s.PostPhysicsContainers
  | .PostUpdateWork => s.PostUpdateWorkContainers

/-- Replace the set a table tag stands for. -/
def State.setTable (s : State) (τ : ETable) (t : TSet) : State :=
  match τ with
  | .PrePhysics => { s with PrePhysicsContainers := t }
  | .DuringPhysics => { s with DuringPhysicsContainers := t }
  | .PostPhysics => { s with PostPhysicsContainers := t }
  | .PostUpdateWork => { s with PostUpdateWorkContainers := t }

/-- Write through a container pointer. -/
def State.store (s : State) (p : ContainerPtr)
    (f : FTickAggregateContainer → FTickAggregateContainer) : State :=
  s.setTable p.Table (TSet.modifyAt (s.table p.Table) p.Index f)

/-- Write to the actor an actor pointer refers to. -/
def State.setActor (s : State) (a : ActorId) (v : AActor) : State :=
  { s with Actors := fun b => if b = a then v else s.Actors b }

/-- What stops a call before it returns. -/
inductive Fault where
  | checkNoEntry
  | checkFailed
  | nullDereference
  | unboundFunction
  deriving DecidableEq, Repr

/-- The engine assertion `checkNoEntry()`: fatal in a build with `DO_CHECK`, empty otherwise. -/
def checkNoEntry (DO_CHECK : Bool) : Except Fault Unit :=
  if DO_CHECK then .error .checkNoEntry else .ok ()

/-- The engine assertions `check(expr)` and `checkf(expr, ...)`: fatal in a build with
`DO_CHECK` when the expression is false, empty otherwise. -/
def check (DO_CHECK : Bool) (expr : Bool) : Except Fault Unit :=
  if DO_CHECK && !expr then .error .checkFailed else .ok ()

/-! ## Member functions -/

/-- `FTickAggregatorTickFunction::Init`. The owner pointer is `none` when null and otherwise
carries what `GetWorld()` of the owner returns; the second component of the result is the
returned `bool`. -/
def FTickAggregatorTickFunction.Init (DO_CHECK : Bool) (f : FTickAggregatorTickFunction)
    (InTickGroup : ETickingGroup) (InOwner : Option (Option UWorld))
    (InTickFunction : Option ETickClosure) :
    Except Fault (FTickAggregatorTickFunction × Bool) :=
  match InOwner with
  | none => .ok (f, false)
  | some none => .ok (f, false)
  | some (some world) =>
    let f1 : FTickAggregatorTickFunction :=
      { f with TickGroup := InTickGroup, Owner := true, TickFunction := InTickFunction }
    match check DO_CHECK f1.TickFunction.isSome with
    | .error e => .error e
    | .ok _ =>
      if !world.bHasCurrentLevel then .ok (f1, false)
      else .ok ({ f1 with bRegistered := true }, true)

/-- `FTickAggregatorTickFunction::Reset`. -/
def FTickAggregatorTickFunction.Reset (f : FTickAggregatorTickFunction) :
    FTickAggregatorTickFunction :=
  { f with bRegistered := false, TickFunction := none, Owner := false }

/-- `UTickAggregatorSubsystem::DoesSupportWorldType`. -/
def DoesSupportWorldType (InWorldType : EWorldType) : Bool :=
  InWorldType == .PIE || InWorldType == .Game

/-- `UTickAggregatorSubsystem::FindContainer(FName, ETickingGroup)`. -/
def FindContainer (DO_CHECK : Bool) (s : State) (InActorClass : FName)
    (InTickGroup : ETickingGroup) : Except Fault (Option ContainerPtr) :=
  match InTickGroup with
  | TG_PrePhysics =>
    .ok ((TSet.Find s.PrePhysicsContainers
      { ActorClass := InActorClass, TickGroup := InTickGroup }).map (ContainerPtr.mk .PrePhysics))
  | TG_DuringPhysics =>
    .ok ((TSet.Find s.DuringPhysicsContainers
      { ActorClass := InActorClass, TickGroup := InTickGroup }).map
        (ContainerPtr.mk .DuringPhysics))
  | TG_PostPhysics =>
    .ok ((TSet.Find s.PostPhysicsContainers
      { ActorClass := InActorClass, TickGroup := InTickGroup }).map (ContainerPtr.mk .PostPhysics))
  | TG_PostUpdateWork =>
    .ok ((TSet.Find s.PostUpdateWorkContainers
      { ActorClass := InActorClass, TickGroup := InTickGroup }).map
        (ContainerPtr.mk .PostUpdateWork))
  | _ =>
    match checkNoEntry DO_CHECK with
    | .error e => .error e
    | .ok _ => .ok none

/-- `UTickAggregatorSubsystem::AddToContainer`. -/
def AddToContainer (DO_CHECK : Bool) (s : State) (InActor : AActorPtr) : Except Fault State :=
  match InActor with
  | none => .ok s
  | some a =>
    let actorClass := (s.Actors a).Class
    let tickGroup := (s.Actors a).PrimaryActorTick.TickGroup
    match FindContainer DO_CHECK s actorClass tickGroup with
    | .error e => .error e
    | .ok (some container) =>
      .ok (s.store container (fun c => { c with Actors := TArray.Add c.Actors a }))
    | .ok none =>
      let newContainer : FTickAggregateContainer :=
        { ActorClass := actorClass, TickGroup := tickGroup, Actors := TArray.Add [] a }
      match tickGroup with
      | TG_PrePhysics =>
        .ok { s with PrePhysicsContainers := TSet.Add s.PrePhysicsContainers newContainer }
      | TG_DuringPhysics =>
        .ok { s with DuringPhysicsContainers := TSet.Add s.DuringPhysicsContainers newContainer }
      | TG_PostPhysics =>
        .ok { s with PostPhysicsContainers := TSet.Add s.PostPhysicsContainers newContainer }
      | TG_PostUpdateWork =>
        .ok { s with PostUpdateWorkContainers := TSet.Add s.PostUpdateWorkContainers newContainer }
      | _ =>
        match checkNoEntry DO_CHECK with
        | .error e => .error e
        | .ok _ => .ok s

/-- `UTickAggregatorSubsystem::RemoveFromContainer`. -/
def RemoveFromContainer (DO_CHECK : Bool) (s : State) (InActor : AActorPtr) :
    Except Fault State :=
  match InActor with
  | none => .ok s
  | some a =>
    let actorClass := (s.Actors a).Class
    let tickGroup := (s.Actors a).PrimaryActorTick.TickGroup
    match FindContainer DO_CHECK s actorClass tickGroup with
    | .error e => .error e
    | .ok none => .ok s
    | .ok (some container) =>
      .ok (s.store container (fun c => { c with Actors := TArray.Remove c.Actors a }))

/-- `UTickAggregatorSubsystem::RegisterActor`. The pointer is dereferenced before any test, so
a null pointer is a fault. -/
def RegisterActor (DO_CHECK : Bool) (s : State) (InActor : AActorPtr) : Except Fault State :=
  match InActor with
  | none => .error .nullDereference
  | some a =>
    if !(s.Actors a).PrimaryActorTick.bCanEverTick
        || !(s.Actors a).PrimaryActorTick.bStartWithTickEnabled then
      .ok s
    else
      let s1 := s.setActor a ((s.Actors a).SetActorTickEnabled false)
      let s2 := s1.setActor a
        { s1.Actors a with
          PrimaryActorTick := { (s1.Actors a).PrimaryActorTick with bCanEverTick := false } }
      let s3 := s2.setActor a
        { s2.Actors a with
          PrimaryActorTick :=
            { (s2.Actors a).PrimaryActorTick with bStartWithTickEnabled := false } }
      match AddToContainer DO_CHECK s3 (some a) with
      | .error e => .error e
      | .ok s4 => .ok (s4.setActor a { s4.Actors a with bOnEndPlayBound := true })

/-- `UTickAggregatorSubsystem::UnregisterActor`. -/
def UnregisterActor (DO_CHECK : Bool) (s : State) (InActor : AActorPtr) : Except Fault State :=
  RemoveFromContainer DO_CHECK s InActor

/-- `UTickAggregatorSubsystem::FindContainer(AActor*)`. -/
def FindContainerOfActor (DO_CHECK : Bool) (s : State) (InActor : AActorPtr) :
    Except Fault (Option ContainerPtr) :=
  match InActor with
  | none => .ok none
  | some a =>
    let actorClass := (s.Actors a).Class
    let tickGroup := (s.Actors a).PrimaryActorTick.TickGroup
    FindContainer DO_CHECK s actorClass tickGroup

/-- `UTickAggregatorSubsystem::IsActorRegistered`: the body is commented out in the source
and the member returns `false`. -/
def IsActorRegistered (_s : State) (_InActor : AActorPtr) : Bool := false

/-- `UTickAggregatorSubsystem::OnActorEndPlay`. -/
def OnActorEndPlay (DO_CHECK : Bool) (s : State) (InActor : AActorPtr) : Except Fault State :=
  match InActor with
  | none => .ok s
  | some a => UnregisterActor DO_CHECK s (some a)

/-- The loop of `OnActorsFinishedInitialise` over the actors of the world. -/
def registerMarkedActors (DO_CHECK : Bool) : State → List AActorPtr → Except Fault State
  | s, [] => .ok s
  | s, none :: rest => registerMarkedActors DO_CHECK s rest
  | s, some a :: rest =>
    if (s.Actors a).bImplementsRegisterInterface
        || (s.Actors a).bComponentImplementsRegisterInterface then
      match RegisterActor DO_CHECK s (some a) with
      | .error e => .error e
      | .ok s1 => registerMarkedActors DO_CHECK s1 rest
    else registerMarkedActors DO_CHECK s rest

/-- `UTickAggregatorSubsystem::OnActorsFinishedInitialise`; `bParamsWorldIsWorld` is the value
of `InParams.World == world`. -/
def OnActorsFinishedInitialise (DO_CHECK : Bool) (s : State) (bParamsWorldIsWorld : Bool) :
    Except Fault State :=
  match check DO_CHECK bParamsWorldIsWorld with
  | .error e => .error e
  | .ok _ =>
    match s.World with
    | none => .ok s
    | some world => registerMarkedActors DO_CHECK s world.ActorPointers

/-- `UTickAggregatorSubsystem::RegisterTickFunctions`: four calls of `Init` with `this` as
owner; the returned values are not used. -/
def RegisterTickFunctions (DO_CHECK : Bool) (s : State) : Except Fault State :=
  match s.PrePhysicsTickFunction.Init DO_CHECK TG_PrePhysics (some s.World)
      (some .callTick_PrePhysics) with
  | .error e => .error e
  | .ok (f1, _) =>
    match s.DuringPhysicsTickFunction.Init DO_CHECK TG_DuringPhysics (some s.World)
        (some .callTick_DuringPhysics) with
    | .error e => .error e
    | .ok (f2, _) =>
      match s.PostPhysicsTickFunction.Init DO_CHECK TG_PostPhysics (some s.World)
          (some .callTick_PostPhysics) with
      | .error e => .error e
      | .ok (f3, _) =>
        match s.PostUpdateWorkTickFunction.Init DO_CHECK TG_PostUpdateWork (some s.World)
            (some .callTick_PostUpdateWork) with
        | .error e => .error e
        | .ok (f4, _) =>
          .ok { s with
                PrePhysicsTickFunction := f1, DuringPhysicsTickFunction := f2,
                PostPhysicsTickFunction := f3, PostUpdateWorkTickFunction := f4 }

/-- `UTickAggregatorSubsystem::UnregisterTickFunctions`. -/
def UnregisterTickFunctions (s : State) : State :=
  { s with
    PrePhysicsTickFunction := s.PrePhysicsTickFunction.Reset
    DuringPhysicsTickFunction := s.DuringPhysicsTickFunction.Reset
    PostPhysicsTickFunction := s.PostPhysicsTickFunction.Reset
    PostUpdateWorkTickFunction := s.PostUpdateWorkTickFunction.Reset }

/-- `UTickAggregatorSubsystem::Initialize` (the base class call changes nothing modelled
here). -/
def Initialize (DO_CHECK : Bool) (s : State) : Except Fault State :=
  if s.bIsTemplate then .ok s
  else
    match s.World with
    | none => .ok s
    | some _ =>
      match RegisterTickFunctions DO_CHECK s with
      | .error e => .error e
      | .ok s1 =>
        .ok { s1 with
              World := s1.World.map (fun w => { w with bOnActorsInitializedBound := true }) }

/-- `UTickAggregatorSubsystem::Deinitialize` (the base class call changes nothing modelled
here). -/
def Deinitialize (s : State) : State :=
  UnregisterTickFunctions s

/-- `UTickAggregatorSubsystem::GetCompactLinearArrayFromContainers`. -/
def GetCompactLinearArrayFromContainers (InContainers : TSet) : List ActorId :=
  InContainers.foldl (fun output container => TArray.Append output container.Actors) []

/-- The range-based loop of the `Tick_*` members: it walks the array that was compacted before
the loop and calls `Tick` on each actor. `ActorTick` is the actor's own update function, which
may change the state; `calls` records the calls made so far. -/
def TickActors {F : Type} (ActorTick : ActorId → F → State → Except Fault State)
    (InDeltaTime : F) :
    List ActorId → State → List (ActorId × F) → Except Fault (State × List (ActorId × F))
  | [], s, calls => .ok (s, calls)
  | actor :: rest, s, calls =>
    match ActorTick actor InDeltaTime s with
    | .error e => .error e
    | .ok s1 => TickActors ActorTick InDeltaTime rest s1 (calls ++ [(actor, InDeltaTime)])

/-- `UTickAggregatorSubsystem::Tick_PrePhysics`. -/
def Tick_PrePhysics {F : Type} (ActorTick : ActorId → F → State → Except Fault State)
    (s : State) (InDeltaTime : F) : Except Fault (State × List (ActorId × F)) :=
  TickActors ActorTick InDeltaTime
    (GetCompactLinearArrayFromContainers s.PrePhysicsContainers) s []

/-- `UTickAggregatorSubsystem::Tick_DuringPhysics`. -/
def Tick_DuringPhysics {F : Type} (ActorTick : ActorId → F → State → Except Fault State)
    (s : State) (InDeltaTime : F) : Except Fault (State × List (ActorId × F)) :=
  TickActors ActorTick InDeltaTime
    (GetCompactLinearArrayFromContainers s.DuringPhysicsContainers) s []

/-- `UTickAggregatorSubsystem::Tick_PostPhysics`. -/
def Tick_PostPhysics {F : Type} (ActorTick : ActorId → F → State → Except Fault State)
    (s : State) (InDeltaTime : F) : Except Fault (State × List (ActorId × F)) :=
  TickActors ActorTick InDeltaTime
    (GetCompactLinearArrayFromContainers s.PostPhysicsContainers) s []

/-- `UTickAggregatorSubsystem::Tick_PostUpdateWork`. -/
def Tick_PostUpdateWork {F : Type} (ActorTick : ActorId → F → State → Except Fault State)
    (s : State) (InDeltaTime : F) : Except Fault (State × List (ActorId × F)) :=
  TickActors ActorTick InDeltaTime
    (GetCompactLinearArrayFromContainers s.PostUpdateWorkContainers) s []

/-- Calling a closure bound by `RegisterTickFunctions`: the body of each lambda is the call of
one `Tick_*` member. -/
def ETickClosure.call {F : Type} (ActorTick : ActorId → F → State → Except Fault State)
    (s : State) (InDeltaTime : F) : ETickClosure → Except Fault (State × List (ActorId × F))
  | .callTick_PrePhysics => Tick_PrePhysics ActorTick s InDeltaTime
  | .callTick_DuringPhysics => Tick_DuringPhysics ActorTick s InDeltaTime
  | .callTick_PostPhysics => Tick_PostPhysics ActorTick s InDeltaTime
  | .callTick_PostUpdateWork => Tick_PostUpdateWork ActorTick s InDeltaTime

/-- `FTickAggregatorTickFunction::ExecuteTick`: the call of the bound closure; calling an
unbound `TUniqueFunction` is a fault. -/
def FTickAggregatorTickFunction.ExecuteTick {F : Type} (f : FTickAggregatorTickFunction)
    (ActorTick : ActorId → F → State → Except Fault State) (s : State) (InDeltaTime : F) :
    Except Fault (State × List (ActorId × F)) :=
  match f.TickFunction with
  | none => .error .unboundFunction
  | some closure => closure.call ActorTick s InDeltaTime

/-! ## Auxiliary notions used to state the properties -/

/-- The set that holds the containers of a tick group, when there is one: the case
distinction of `FindContainer` and of `AddToContainer`. -/
def tableOf : ETickingGroup → Option ETable
  | TG_PrePhysics => some .PrePhysics
  | TG_DuringPhysics => some .DuringPhysics
  | TG_PostPhysics => some .PostPhysics
  | TG_PostUpdateWork => some .PostUpdateWork
  | _ => none

/-- The closure that `RegisterTickFunctions` binds for the tick group of a table. -/
def ETable.closure : ETable → ETickClosure
  | .PrePhysics => .callTick_PrePhysics
  | .DuringPhysics => .callTick_DuringPhysics
  | .PostPhysics => .callTick_PostPhysics
  | .PostUpdateWork => .callTick_PostUpdateWork

/-- The compacted output of one of the four sets. -/
def State.compact (s : State) (τ : ETable) : List ActorId :=
  GetCompactLinearArrayFromContainers (s.table τ)

/-- The tick group an actor declares. -/
def State.tickGroupOf (s : State) (a : ActorId) : ETickingGroup :=
  (s.Actors a).PrimaryActorTick.TickGroup

/-- A freshly constructed subsystem in a world with the given actors: default tick functions,
empty sets. -/
def State.initial (actors : ActorId → AActor) : State := { Actors := actors }

/-- A call of one of the two registration members on a (non-null) actor. -/
inductive Call where
  | Register (a : ActorId)
  | Unregister (a : ActorId)
  deriving DecidableEq, Repr

/-- Perform one call. -/
def Call.run (DO_CHECK : Bool) (s : State) : Call → Except Fault State
  | .Register a => RegisterActor DO_CHECK s (some a)
  | .Unregister a => UnregisterActor DO_CHECK s (some a)

/-- Perform a sequence of calls, first to last; a fault stops the sequence. -/
def runCalls (DO_CHECK : Bool) : State → List Call → Except Fault State
  | s, [] => .ok s
  | s, c :: cs =>
    match c.run DO_CHECK s with
    | .error e => .error e
    | .ok s1 => runCalls DO_CHECK s1 cs

/-- A state reached from the empty subsystem by register and unregister calls that all
returned. -/
def Reachable (DO_CHECK : Bool) (s : State) : Prop :=
  ∃ actors calls, runCalls DO_CHECK (State.initial actors) calls = .ok s

/-- Membership bookkeeping in the words of the spec (sections 4.2 and 8): an entity has a
self-tick eligibility and is registered or not. -/
structure SpecState where
  selfTicking : ActorId → Bool
  registered : ActorId → Bool

/-- The spec's `registerEntity`: rejected silently unless the entity is self-ticking; on
success self-ticking is disabled for good and the entity is registered. -/
def SpecState.registerEntity (σ : SpecState) (e : ActorId) : SpecState :=
  if σ.selfTicking e then
    { selfTicking := fun x => if x = e then false else σ.selfTicking x
      registered := fun x => if x = e then true else σ.registered x }
  else σ

/-- The spec's `unregisterEntity`: the entity is no longer registered. -/
def SpecState.unregisterEntity (σ : SpecState) (e : ActorId) : SpecState :=
  { σ with registered := fun x => if x = e then false else σ.registered x }

/-- The spec-level effect of a sequence of calls. -/
def SpecState.run : SpecState → List Call → SpecState
  | σ, [] => σ
  | σ, .Register e :: cs => SpecState.run (σ.registerEntity e) cs
  | σ, .Unregister e :: cs => SpecState.run (σ.unregisterEntity e) cs

/-- The spec-level start: nothing is registered, self-ticking is what the actors declare. -/
def SpecState.initial (actors : ActorId → AActor) : SpecState :=
  { selfTicking := fun e => (actors e).eligible, registered := fun _ => false }

/-- The effect of `AddToContainer` on the set of the actor's tick group. -/
def TSet.insertActor (t : TSet) (cls : FName) (g : ETickingGroup) (a : ActorId) : TSet :=
  match TSet.Find t { ActorClass := cls, TickGroup := g } with
  | some i => TSet.modifyAt t i (fun c => { c with Actors := TArray.Add c.Actors a })
  | none => t ++ [{ ActorClass := cls, TickGroup := g, Actors := [a] }]

/-- The effect of `RemoveFromContainer` on the set of the actor's tick group. -/
def TSet.eraseActor (t : TSet) (cls : FName) (g : ETickingGroup) (a : ActorId) : TSet :=
  match TSet.Find t { ActorClass := cls, TickGroup := g } with
  | some i => TSet.modifyAt t i (fun c => { c with Actors := TArray.Remove c.Actors a })
  | none => t

/-- The actor as `RegisterActor` leaves it before the call of `AddToContainer`: ticking
switched off and both flags cleared. -/
def AActor.selfTickDisabled (v : AActor) : AActor :=
  { v with
    PrimaryActorTick :=
      { v.PrimaryActorTick with
        bCanEverTick := false, bStartWithTickEnabled := false, bTickEnabled := false } }

/-- The actor after a successful registration. -/
def AActor.registered (v : AActor) : AActor :=
  { v.selfTickDisabled with bOnEndPlayBound := true }

/-- The state after `RegisterActor` accepted an actor whose tick group has the set `τ`. -/
def State.afterRegister (s : State) (a : ActorId) (τ : ETable) : State :=
  ((s.setActor a (s.Actors a).selfTickDisabled).setTable τ
      ((s.table τ).insertActor (s.Actors a).Class τ.group a)).setActor a
    (s.Actors a).registered

/-- An actor of the given class and tick group that ticks by itself and implements the
register interface. -/
def AActor.ticking (cls : FName) (g : ETickingGroup) : AActor :=
  { Class := cls
    PrimaryActorTick :=
      { TickGroup := g, bCanEverTick := true, bStartWithTickEnabled := true, bTickEnabled := true }
    bOnEndPlayBound := false
    bImplementsRegisterInterface := true
    bComponentImplementsRegisterInterface := false }

/-- A small world: actors 0, 1, 2 of class 10 and actors 3, 4 of class 20 tick before physics,
actor 5 of class 30 ticks after physics, and every other actor has class 40 and the tick
group `TG_StartPhysics`, for which the subsystem has no set. -/
def exampleActors : ActorId → AActor := fun i =>
  if i < 3 then AActor.ticking 10 TG_PrePhysics
  else if i < 5 then AActor.ticking 20 TG_PrePhysics
  else if i = 5 then AActor.ticking 30 TG_PostPhysics
  else AActor.ticking 40 TG_StartPhysics

/-- Well-formedness of the set of tick group `g` with respect to the actors: every group
carries the tick group of its set, two groups never share a class, every actor in a group has
the class of the group, declares `g` and has lost its eligibility, and no group lists an actor
twice. -/
structure TableInv (actors : ActorId → AActor) (g : ETickingGroup) (t : TSet) : Prop where
  group : ∀ c ∈ t, c.TickGroup = g
  classes : t.Pairwise (fun c d => c.ActorClass ≠ d.ActorClass)
  members : ∀ c ∈ t, ∀ a ∈ c.Actors,
    (actors a).Class = c.ActorClass ∧ (actors a).PrimaryActorTick.TickGroup = g
      ∧ (actors a).eligible = false
  nodup : ∀ c ∈ t, c.Actors.Nodup

/-- Well-formedness of the four sets of a state. -/
def State.Inv (s : State) : Prop := ∀ τ : ETable, TableInv s.Actors τ.group (s.table τ)

/-- The state agrees with the spec-level bookkeeping: self-ticking is eligibility, and an actor
is in the compacted output of a set exactly when it is registered and declares the tick group
of that set. -/
def Agrees (s : State) (σ : SpecState) : Prop :=
  (∀ a, σ.selfTicking a = (s.Actors a).eligible)
    ∧ (∀ a, σ.registered a = true → (s.Actors a).eligible = false)
    ∧ ∀ a τ, a ∈ GetCompactLinearArrayFromContainers (s.table τ)
        ↔ σ.registered a = true ∧ (s.Actors a).PrimaryActorTick.TickGroup = τ.group

/-- The elements of `l` with a given key stand next to each other: for every key value the
list splits into a part without the key, a block of elements with the key, and a part without
the key. -/
def ContiguousBy {α β : Type} (key : α → β) (l : List α) : Prop :=
  ∀ k : β, ∃ pre block post, l = pre ++ block ++ post
    ∧ (∀ x ∈ block, key x = k) ∧ (∀ x ∈ pre, key x ≠ k) ∧ (∀ x ∈ post, key x ≠ k)

/-- The listed actors end their life one after the other: `OnActorEndPlay` is called for
each. -/
def unregisterAll (DO_CHECK : Bool) : State → List ActorId → Except Fault State
  | s, [] => .ok s
  | s, v :: vs =>
    match OnActorEndPlay DO_CHECK s (some v) with
    | .error e => .error e
    | .ok s1 => unregisterAll DO_CHECK s1 vs

/-- An update function whose only effect on the subsystem is that the actors `victims a` end
their life, and so are unregistered, while actor `a` ticks. -/
def unregisteringTick {F : Type} (DO_CHECK : Bool) (victims : ActorId → List ActorId) :
    ActorId → F → State → Except Fault State :=
  fun a _ s => unregisterAll DO_CHECK s (victims a)

/-- A sequence of calls in the example world: the five actors that tick before physics are
registered, three of class 10 and two of class 20, interleaved; actor 5 is registered after
physics and unregistered again. -/
def exampleCalls : List Call :=
  [.Register 0, .Register 3, .Register 5, .Register 1, .Register 4, .Unregister 5, .Register 2]

/-- The state the example calls lead to from the empty subsystem. -/
def exampleState : State :=
  match runCalls true (State.initial exampleActors) exampleCalls with
  | .ok s => s
  | .error _ => State.initial exampleActors

/-- An update function that leaves the subsystem alone. -/
def idleTick {F : Type} : ActorId → F → State → Except Fault State :=
  fun _ _ s => .ok s

/-- In the example, the update of actor 1 ends the life of actor 1 itself; no other update
unregisters anything. -/
def exampleVictims : ActorId → List ActorId := fun a => if a = 1 then [1] else []

/-- The tick function member that belongs to a set. -/
def State.tickFunction (s : State) : ETable → FTickAggregatorTickFunction
  | .PrePhysics => s.PrePhysicsTickFunction
  | .DuringPhysics => s.DuringPhysicsTickFunction
  | .PostPhysics => s.PostPhysicsTickFunction
  | .PostUpdateWork => s.PostUpdateWorkTickFunction

/-- A world that has no current level; its actor iterator yields actor 0. -/
def levellessWorld : UWorld :=
  { bHasCurrentLevel := false, bOnActorsInitializedBound := false, ActorPointers := [some 0] }

/-- A freshly constructed subsystem of the world without a level, with the example actors. -/
def levellessState : State :=
  { State.initial exampleActors with World := some levellessWorld }

/-- A call of one of the two container members with an actor pointer. -/
inductive ContainerCall where
  | Add (p : AActorPtr)
  | Remove (p : AActorPtr)
  deriving DecidableEq, Repr

/-- Perform one call of a container member. -/
def ContainerCall.run (DO_CHECK : Bool) (s : State) : ContainerCall → Except Fault State
  | .Add p => AddToContainer DO_CHECK s p
  | .Remove p => RemoveFromContainer DO_CHECK s p

/-- Perform a sequence of calls of the container members, first to last; a fault stops the
sequence. -/
def runContainerCalls (DO_CHECK : Bool) : State → List ContainerCall → Except Fault State
  | s, [] => .ok s
  | s, c :: cs =>
    match c.run DO_CHECK s with
    | .error e => .error e
    | .ok s1 => runContainerCalls DO_CHECK s1 cs

/-- The part of the invariant that concerns group keys only: every group of the set carries
the tick group `g`, and two groups never share a class. -/
structure KeyInv (g : ETickingGroup) (t : TSet) : Prop where
  group : ∀ c ∈ t, c.TickGroup = g
  classes : t.Pairwise (fun c d => c.ActorClass ≠ d.ActorClass)

/-- A sequence of container calls in the example world: actor 0 is added twice, actors 3 and 5
once, and actor 3 is removed again. -/
def exampleContainerCalls : List ContainerCall :=
  [.Add (some 0), .Add (some 3), .Add (some 0), .Add (some 5), .Remove (some 3), .Add none]

/-- The state the example container calls lead to from the empty subsystem. -/
def exampleContainerState : State :=
  match runContainerCalls true (State.initial exampleActors) exampleContainerCalls with
  | .ok s => s
  | .error _ => State.initial exampleActors

/-- The key of a group: the two members `operator==` compares. -/
def FTickAggregateContainer.key (c : FTickAggregateContainer) : FName × ETickingGroup :=
  (c.ActorClass, c.TickGroup)

/-- A call of a member of the subsystem that changes the state. A phase run is made with
update functions that let actors end their life. -/
inductive SubsystemCall where
  | Init
  | Deinit
  | RegisterActor (p : AActorPtr)
  | UnregisterActor (p : AActorPtr)
  | AddToContainer (p : AActorPtr)
  | RemoveFromContainer (p : AActorPtr)
  | OnActorsFinishedInitialise (bParamsWorldIsWorld : Bool)
  | OnActorEndPlay (p : AActorPtr)
  | ExecuteTick (τ : ETable) (victims : ActorId → List ActorId)

/-- Perform one call of a member of the subsystem. -/
def SubsystemCall.run (DO_CHECK : Bool) (s : State) : SubsystemCall → Except Fault State
  | .Init => TickAggregator.Initialize DO_CHECK s
  | .Deinit => Except.ok <| TickAggregator.Deinitialize s
  | .RegisterActor p => TickAggregator.RegisterActor DO_CHECK s p
  | .UnregisterActor p => TickAggregator.UnregisterActor DO_CHECK s p
  | .AddToContainer p => TickAggregator.AddToContainer DO_CHECK s p
  | .RemoveFromContainer p => TickAggregator.RemoveFromContainer DO_CHECK s p
  | .OnActorsFinishedInitialise b => TickAggregator.OnActorsFinishedInitialise DO_CHECK s b
  | .OnActorEndPlay p => TickAggregator.OnActorEndPlay DO_CHECK s p
  | .ExecuteTick τ victims =>
    match (s.tickFunction τ).ExecuteTick (unregisteringTick DO_CHECK victims) s () with
    | .error e => .error e
    | .ok r => .ok r.1

/-- Perform a sequence of calls of members of the subsystem, first to last; a fault stops the
sequence. -/
def runSubsystemCalls (DO_CHECK : Bool) : State → List SubsystemCall → Except Fault State
  | s, [] => .ok s
  | s, c :: cs =>
    match c.run DO_CHECK s with
    | .error e => .error e
    | .ok s1 => runSubsystemCalls DO_CHECK s1 cs

/-- No self-tick flag that is false in `s` is true in `s1`. -/
def NoFlagRaised (s s1 : State) : Prop :=
  ∀ b : ActorId,
    ((s1.Actors b).PrimaryActorTick.bCanEverTick = true →
        (s.Actors b).PrimaryActorTick.bCanEverTick = true)
      ∧ ((s1.Actors b).PrimaryActorTick.bStartWithTickEnabled = true →
        (s.Actors b).PrimaryActorTick.bStartWithTickEnabled = true)

/-- A freshly constructed subsystem of a world with a current level and the example actors;
the actor iterator of the world yields actor 0, a null pointer and actor 1. -/
def exampleWorldState : State :=
  { State.initial exampleActors with
    World := some { bHasCurrentLevel := true, bOnActorsInitializedBound := false,
                    ActorPointers := [some 0, none, some 1] } }

/-- The state after actor 0 has been registered in the fresh subsystem of the example world. -/
def exampleRegisteredState : State :=
  match RegisterActor true exampleWorldState (some 0) with
  | .ok s => s
  | .error _ => State.initial exampleActors

/-- Calls after the registration of actor 0: it is unregistered, registered again, the
subsystem is initialised, the actors-initialised event fires, a phase runs, actor 0 is added to
its container directly and removed again, and the subsystem is deinitialised. -/
def exampleLaterCalls : List SubsystemCall :=
  [.UnregisterActor (some 0), .RegisterActor (some 0), .Init,
   .OnActorsFinishedInitialise true, .ExecuteTick .PrePhysics exampleVictims,
   .AddToContainer (some 0), .RemoveFromContainer (some 0), .OnActorEndPlay (some 1),
   .Deinit]

/-- The state the later calls lead to. -/
def exampleLaterState : State :=
  match runSubsystemCalls true exampleRegisteredState exampleLaterCalls with
  | .ok s => s
  | .error _ => State.initial exampleActors

/-! ## Basic facts about the embedding -/

theorem foldl_append_actors (t : TSet) (acc : List ActorId) :
    t.foldl (fun output container => TArray.Append output container.Actors) acc
      = acc ++ (t.map (fun c => c.Actors)).flatten := by
  induction t generalizing acc with
  | nil => simp
  | cons c cs ih =>
    simp only [List.foldl_cons, List.map_cons, List.flatten_cons]
    rw [ih]
    simp [TArray.Append, List.append_assoc]

theorem compact_eq_flatten (t : TSet) :
    GetCompactLinearArrayFromContainers t = (t.map (fun c => c.Actors)).flatten := by
  unfold GetCompactLinearArrayFromContainers
  rw [foldl_append_actors]
  simp

theorem mem_compact_iff (t : TSet) (x : ActorId) :
    x ∈ GetCompactLinearArrayFromContainers t ↔ ∃ c ∈ t, x ∈ c.Actors := by
  rw [compact_eq_flatten]
  simp [List.mem_flatten]

@[simp] theorem table_setTable (s : State) (τ σ : ETable) (t : TSet) :
    (s.setTable τ t).table σ = if σ = τ then t else s.table σ := by
  cases τ <;> cases σ <;> simp [State.setTable, State.table]

@[simp] theorem Actors_setTable (s : State) (τ : ETable) (t : TSet) :
    (s.setTable τ t).Actors = s.Actors := by
  cases τ <;> rfl

@[simp] theorem table_setActor (s : State) (a : ActorId) (v : AActor) (σ : ETable) :
    (s.setActor a v).table σ = s.table σ := by
  cases σ <;> rfl

@[simp] theorem Actors_setActor (s : State) (a : ActorId) (v : AActor) (b : ActorId) :
    (s.setActor a v).Actors b = if b = a then v else s.Actors b := rfl

theorem tableOf_eq_some {g : ETickingGroup} {τ : ETable} :
    tableOf g = some τ ↔ τ.group = g := by
  cases g <;> cases τ <;> simp [tableOf, ETable.group]

theorem tableOf_group (τ : ETable) : tableOf τ.group = some τ :=
  tableOf_eq_some.2 rfl

theorem tableOf_eq_none {g : ETickingGroup} :
    tableOf g = none ↔ ∀ τ : ETable, τ.group ≠ g := by
  constructor
  · intro h τ hτ
    rw [← hτ, tableOf_group] at h
    cases h
  · intro h
    cases hg : tableOf g with
    | none => rfl
    | some τ => exact absurd (tableOf_eq_some.1 hg) (h τ)

theorem Find_congr (t : TSet) (k k1 : FTickAggregateContainer)
    (hc : k.ActorClass = k1.ActorClass) (hg : k.TickGroup = k1.TickGroup) :
    TSet.Find t k = TSet.Find t k1 := by
  induction t with
  | nil => rfl
  | cons c cs ih => simp [TSet.Find, FTickAggregateContainer.opEq, hc, hg, ih]

theorem FindContainer_table (chk : Bool) (s : State) (cls : FName) (τ : ETable) :
    FindContainer chk s cls τ.group
      = .ok ((TSet.Find (s.table τ) { ActorClass := cls, TickGroup := τ.group }).map
          (ContainerPtr.mk τ)) := by
  cases τ <;> rfl

theorem FindContainer_noTable (chk : Bool) (s : State) (cls : FName) {g : ETickingGroup}
    (h : tableOf g = none) :
    FindContainer chk s cls g = if chk then .error .checkNoEntry else .ok none := by
  cases g <;> cases chk <;> simp_all [tableOf, FindContainer, checkNoEntry]

theorem AddToContainer_table (chk : Bool) (s : State) (a : ActorId) {τ : ETable}
    (h : tableOf (s.tickGroupOf a) = some τ) :
    AddToContainer chk s (some a)
      = .ok (s.setTable τ ((s.table τ).insertActor (s.Actors a).Class τ.group a)) := by
  have hg : (s.Actors a).PrimaryActorTick.TickGroup = τ.group := (tableOf_eq_some.1 h).symm
  unfold AddToContainer
  simp only [hg, FindContainer_table]
  unfold TSet.insertActor
  cases hf : TSet.Find (s.table τ) { ActorClass := (s.Actors a).Class, TickGroup := τ.group } with
  | some i => simp [State.store]
  | none =>
    have hf1 : TSet.Find (s.table τ)
        { ActorClass := (s.Actors a).Class, TickGroup := τ.group, Actors := TArray.Add [] a }
          = none := by
      rw [← hf]; exact Find_congr _ _ _ rfl rfl
    cases τ <;> simp [TSet.Add, ETable.group, State.setTable, State.table, TArray.Add] at hf1 ⊢
      <;> simp [hf1, TSet.Add, TArray.Add]

theorem AddToContainer_noTable (chk : Bool) (s : State) (a : ActorId)
    (h : tableOf (s.tickGroupOf a) = none) :
    AddToContainer chk s (some a) = if chk then .error .checkNoEntry else .ok s := by
  simp only [State.tickGroupOf] at h
  simp only [AddToContainer, FindContainer_noTable chk s _ h]
  cases chk
  · generalize (s.Actors a).PrimaryActorTick.TickGroup = g at h
    cases g <;> simp_all [tableOf, checkNoEntry]
  · simp

theorem RemoveFromContainer_table (chk : Bool) (s : State) (a : ActorId) {τ : ETable}
    (h : tableOf (s.tickGroupOf a) = some τ) :
    RemoveFromContainer chk s (some a)
      = .ok (s.setTable τ ((s.table τ).eraseActor (s.Actors a).Class τ.group a)) := by
  have hg : (s.Actors a).PrimaryActorTick.TickGroup = τ.group := (tableOf_eq_some.1 h).symm
  unfold RemoveFromContainer
  simp only [hg, FindContainer_table]
  unfold TSet.eraseActor
  cases hf : TSet.Find (s.table τ) { ActorClass := (s.Actors a).Class, TickGroup := τ.group } with
  | some i => simp [State.store]
  | none => cases τ <;> simp [State.setTable, State.table]

theorem RemoveFromContainer_noTable (chk : Bool) (s : State) (a : ActorId)
    (h : tableOf (s.tickGroupOf a) = none) :
    RemoveFromContainer chk s (some a) = if chk then .error .checkNoEntry else .ok s := by
  simp only [State.tickGroupOf] at h
  simp only [RemoveFromContainer, FindContainer_noTable chk s _ h]
  cases chk <;> simp

theorem setActor_setActor (s : State) (a : ActorId) (v w : AActor) :
    (s.setActor a v).setActor a w = s.setActor a w := by
  unfold State.setActor
  congr 1
  funext b
  by_cases hb : b = a <;> simp [hb]

theorem setTable_table_self (s : State) (τ : ETable) : s.setTable τ (s.table τ) = s := by
  cases τ <;> rfl

theorem setTable_setTable (s : State) (τ : ETable) (t u : TSet) :
    (s.setTable τ t).setTable τ u = s.setTable τ u := by
  cases τ <;> rfl

theorem eligible_iff (v : AActor) :
    v.eligible = true
      ↔ v.PrimaryActorTick.bCanEverTick = true ∧ v.PrimaryActorTick.bStartWithTickEnabled = true := by
  simp [AActor.eligible]

theorem RegisterActor_rejected (chk : Bool) (s : State) (a : ActorId)
    (h : (s.Actors a).eligible = false) : RegisterActor chk s (some a) = .ok s := by
  unfold RegisterActor
  simp only [AActor.eligible] at h
  cases h1 : (s.Actors a).PrimaryActorTick.bCanEverTick <;>
    cases h2 : (s.Actors a).PrimaryActorTick.bStartWithTickEnabled <;> simp_all

theorem RegisterActor_accepted (chk : Bool) (s : State) (a : ActorId)
    (h : (s.Actors a).eligible = true) :
    RegisterActor chk s (some a)
      = match AddToContainer chk (s.setActor a (s.Actors a).selfTickDisabled) (some a) with
        | .error e => .error e
        | .ok s4 => .ok (s4.setActor a { s4.Actors a with bOnEndPlayBound := true }) := by
  obtain ⟨h1, h2⟩ := (eligible_iff _).1 h
  unfold RegisterActor
  simp only [h1, h2, Bool.not_true, Bool.or_self, Bool.false_eq_true, if_false,
    setActor_setActor, Actors_setActor, if_true]
  have e : ∀ v w : AActor, v = w → s.setActor a v = s.setActor a w := fun _ _ hvw => by rw [hvw]
  rw [e _ (s.Actors a).selfTickDisabled]
  simp [AActor.SetActorTickEnabled, AActor.selfTickDisabled, h1]

theorem RegisterActor_table (chk : Bool) (s : State) (a : ActorId) {τ : ETable}
    (h : (s.Actors a).eligible = true) (hτ : tableOf (s.tickGroupOf a) = some τ) :
    RegisterActor chk s (some a) = .ok (s.afterRegister a τ) := by
  rw [RegisterActor_accepted chk s a h]
  have hτ1 : tableOf ((s.setActor a (s.Actors a).selfTickDisabled).tickGroupOf a) = some τ := by
    simpa [State.tickGroupOf, AActor.selfTickDisabled] using hτ
  rw [AddToContainer_table chk _ a hτ1]
  simp [State.afterRegister, AActor.registered, AActor.selfTickDisabled]

theorem RegisterActor_noTable (chk : Bool) (s : State) (a : ActorId)
    (h : (s.Actors a).eligible = true) (hτ : tableOf (s.tickGroupOf a) = none) :
    RegisterActor chk s (some a)
      = if chk then .error .checkNoEntry else .ok (s.setActor a (s.Actors a).registered) := by
  rw [RegisterActor_accepted chk s a h]
  have hτ1 : tableOf ((s.setActor a (s.Actors a).selfTickDisabled).tickGroupOf a) = none := by
    simpa [State.tickGroupOf, AActor.selfTickDisabled] using hτ
  rw [AddToContainer_noTable chk _ a hτ1]
  cases chk
  · simp [setActor_setActor, AActor.registered]
  · simp

@[simp] theorem table_afterRegister (s : State) (a : ActorId) (τ σ : ETable) :
    (s.afterRegister a τ).table σ
      = if σ = τ then (s.table τ).insertActor (s.Actors a).Class τ.group a else s.table σ := by
  simp [State.afterRegister]

@[simp] theorem Actors_afterRegister (s : State) (a : ActorId) (τ : ETable) (b : ActorId) :
    (s.afterRegister a τ).Actors b = if b = a then (s.Actors a).registered else s.Actors b := by
  by_cases hb : b = a <;> simp [State.afterRegister, hb]

/-! ## Sets of containers: insertion and removal of an actor -/

theorem insertActor_nil (cls : FName) (g : ETickingGroup) (a : ActorId) :
    TSet.insertActor [] cls g a = [{ ActorClass := cls, TickGroup := g, Actors := [a] }] := rfl

theorem insertActor_cons (c : FTickAggregateContainer) (cs : TSet) (cls : FName)
    (g : ETickingGroup) (a : ActorId) :
    TSet.insertActor (c :: cs) cls g a
      = if c.opEq { ActorClass := cls, TickGroup := g } then
          { c with Actors := c.Actors ++ [a] } :: cs
        else c :: TSet.insertActor cs cls g a := by
  unfold TSet.insertActor
  by_cases h : c.opEq { ActorClass := cls, TickGroup := g } = true
  · simp [TSet.Find, h, TSet.modifyAt, TArray.Add]
  · simp only [TSet.Find, h, Bool.false_eq_true, if_false]
    cases TSet.Find cs { ActorClass := cls, TickGroup := g } <;> simp [TSet.modifyAt]

theorem eraseActor_nil (cls : FName) (g : ETickingGroup) (a : ActorId) :
    TSet.eraseActor [] cls g a = [] := rfl

theorem eraseActor_cons (c : FTickAggregateContainer) (cs : TSet) (cls : FName)
    (g : ETickingGroup) (a : ActorId) :
    TSet.eraseActor (c :: cs) cls g a
      = if c.opEq { ActorClass := cls, TickGroup := g } then
          { c with Actors := TArray.Remove c.Actors a } :: cs
        else c :: TSet.eraseActor cs cls g a := by
  unfold TSet.eraseActor
  by_cases h : c.opEq { ActorClass := cls, TickGroup := g } = true
  · simp [TSet.Find, h, TSet.modifyAt]
  · simp only [TSet.Find, h, Bool.false_eq_true, if_false]
    cases TSet.Find cs { ActorClass := cls, TickGroup := g } <;> simp [TSet.modifyAt]

theorem opEq_iff (c : FTickAggregateContainer) (cls : FName) (g : ETickingGroup) :
    c.opEq { ActorClass := cls, TickGroup := g } = true ↔ c.ActorClass = cls ∧ c.TickGroup = g := by
  simp [FTickAggregateContainer.opEq]

theorem mem_Remove {x a : ActorId} {l : List ActorId} :
    x ∈ TArray.Remove l a ↔ x ∈ l ∧ x ≠ a := by
  simp [TArray.Remove]

theorem Remove_of_not_mem {a : ActorId} {l : List ActorId} (h : a ∉ l) :
    TArray.Remove l a = l := by
  unfold TArray.Remove
  rw [List.filter_eq_self]
  intro y hy
  simp only [decide_eq_true_eq]
  rintro rfl
  exact h hy

theorem Remove_Remove (a : ActorId) (l : List ActorId) :
    TArray.Remove (TArray.Remove l a) a = TArray.Remove l a :=
  Remove_of_not_mem (fun h => (mem_Remove.1 h).2 rfl)

theorem Remove_append_self (a : ActorId) (l : List ActorId) (h : a ∉ l) :
    TArray.Remove (l ++ [a]) a = l := by
  have e := Remove_of_not_mem h
  unfold TArray.Remove at e ⊢
  rw [List.filter_append, e]
  simp

theorem mem_compact_insertActor (t : TSet) (cls : FName) (g : ETickingGroup) (a x : ActorId) :
    x ∈ GetCompactLinearArrayFromContainers (t.insertActor cls g a)
      ↔ x = a ∨ x ∈ GetCompactLinearArrayFromContainers t := by
  simp only [compact_eq_flatten]
  induction t with
  | nil => simp [insertActor_nil]
  | cons c cs ih =>
    rw [insertActor_cons]
    split
    · simp only [List.map_cons, List.flatten_cons, List.mem_append, List.mem_singleton]
      tauto
    · simp only [List.map_cons, List.flatten_cons, List.mem_append, ih]
      tauto

theorem eraseActor_of_absent (t : TSet) (cls : FName) (g : ETickingGroup) (a : ActorId)
    (h : a ∉ GetCompactLinearArrayFromContainers t) : t.eraseActor cls g a = t := by
  induction t with
  | nil => rfl
  | cons c cs ih =>
    rw [mem_compact_iff] at h
    have hc : a ∉ c.Actors := fun hm => h ⟨c, List.mem_cons_self _ _, hm⟩
    have hcs : a ∉ GetCompactLinearArrayFromContainers cs := by
      rw [mem_compact_iff]
      rintro ⟨d, hd, hm⟩
      exact h ⟨d, List.mem_cons_of_mem _ hd, hm⟩
    rw [eraseActor_cons]
    split
    · rw [Remove_of_not_mem hc]
    · rw [ih hcs]

theorem eraseActor_eraseActor (t : TSet) (cls : FName) (g : ETickingGroup) (a : ActorId) :
    (t.eraseActor cls g a).eraseActor cls g a = t.eraseActor cls g a := by
  induction t with
  | nil => rfl
  | cons c cs ih =>
    rw [eraseActor_cons]
    by_cases h : c.opEq { ActorClass := cls, TickGroup := g } = true
    · have h1 : FTickAggregateContainer.opEq { c with Actors := TArray.Remove c.Actors a }
          { ActorClass := cls, TickGroup := g } = true := h
      simp only [h, if_true]
      rw [eraseActor_cons]
      simp only [h1, if_true, Remove_Remove]
    · simp only [h, Bool.false_eq_true, if_false]
      rw [eraseActor_cons]
      simp only [h, Bool.false_eq_true, if_false, ih]

theorem mem_compact_eraseActor_imp (t : TSet) (cls : FName) (g : ETickingGroup) (a x : ActorId)
    (h : x ∈ GetCompactLinearArrayFromContainers (t.eraseActor cls g a)) :
    x ∈ GetCompactLinearArrayFromContainers t := by
  simp only [compact_eq_flatten] at h ⊢
  induction t with
  | nil => simp [eraseActor_nil] at h
  | cons c cs ih =>
    rw [eraseActor_cons] at h
    split at h
    · simp only [List.map_cons, List.flatten_cons, List.mem_append, mem_Remove] at h ⊢
      tauto
    · simp only [List.map_cons, List.flatten_cons, List.mem_append] at h ⊢
      rcases h with h | h
      · exact Or.inl h
      · exact Or.inr (ih h)

theorem erase_insert_of_absent (t : TSet) (cls : FName) (g : ETickingGroup) (a : ActorId)
    (h : a ∉ GetCompactLinearArrayFromContainers t) :
    (t.insertActor cls g a).eraseActor cls g a
      = if (TSet.Find t { ActorClass := cls, TickGroup := g }).isSome then t
        else t ++ [{ ActorClass := cls, TickGroup := g, Actors := [] }] := by
  induction t with
  | nil =>
    simp [insertActor_nil, eraseActor_cons, FTickAggregateContainer.opEq, TSet.Find,
      eraseActor_nil, TArray.Remove]
  | cons c cs ih =>
    rw [mem_compact_iff] at h
    have hc : a ∉ c.Actors := fun hm => h ⟨c, List.mem_cons_self _ _, hm⟩
    have hcs : a ∉ GetCompactLinearArrayFromContainers cs := by
      rw [mem_compact_iff]
      rintro ⟨d, hd, hm⟩
      exact h ⟨d, List.mem_cons_of_mem _ hd, hm⟩
    rw [insertActor_cons]
    by_cases hk : c.opEq { ActorClass := cls, TickGroup := g } = true
    · have h1 : FTickAggregateContainer.opEq { c with Actors := c.Actors ++ [a] }
          { ActorClass := cls, TickGroup := g } = true := hk
      simp only [hk, if_true]
      rw [eraseActor_cons]
      simp [h1, Remove_append_self a c.Actors hc, TSet.Find, hk]
    · simp only [hk, Bool.false_eq_true, if_false]
      rw [eraseActor_cons]
      simp only [hk, Bool.false_eq_true, if_false, ih hcs, TSet.Find]
      cases TSet.Find cs { ActorClass := cls, TickGroup := g } <;> simp

/-! ## Running a phase -/

theorem TickActors_calls {F : Type} (tick : ActorId → F → State → Except Fault State) (dt : F)
    (l : List ActorId) (s : State) (calls : List (ActorId × F)) (r : State × List (ActorId × F))
    (h : TickActors tick dt l s calls = .ok r) :
    r.2 = calls ++ l.map (fun a => (a, dt)) := by
  induction l generalizing s calls with
  | nil =>
    simp only [TickActors, Except.ok.injEq] at h
    simp [← h]
  | cons a rest ih =>
    simp only [TickActors] at h
    cases ht : tick a dt s with
    | error e => simp [ht] at h
    | ok s1 =>
      simp only [ht] at h
      rw [ih _ _ h]
      simp

theorem TickActors_returns {F : Type} (tick : ActorId → F → State → Except Fault State) (dt : F)
    (htick : ∀ a s, ∃ s1, tick a dt s = .ok s1)
    (l : List ActorId) (s : State) (calls : List (ActorId × F)) :
    ∃ r, TickActors tick dt l s calls = .ok r := by
  induction l generalizing s calls with
  | nil => exact ⟨_, rfl⟩
  | cons a rest ih =>
    obtain ⟨s1, hs1⟩ := htick a s
    simp only [TickActors, hs1]
    exact ih _ _

theorem closure_call_eq {F : Type} (tick : ActorId → F → State → Except Fault State)
    (s : State) (dt : F) (τ : ETable) :
    τ.closure.call tick s dt = TickActors tick dt (s.compact τ) s [] := by
  cases τ <;> rfl

theorem closure_call_calls {F : Type} (tick : ActorId → F → State → Except Fault State)
    (s : State) (dt : F) (τ : ETable) (r : State × List (ActorId × F))
    (h : τ.closure.call tick s dt = .ok r) :
    r.2 = (s.compact τ).map (fun a => (a, dt)) := by
  rw [closure_call_eq] at h
  simpa using TickActors_calls tick dt _ s [] r h

theorem RegisterActor_returns (chk : Bool) (s : State) (a : ActorId)
    (h : chk = false ∨ tableOf (s.tickGroupOf a) ≠ none) :
    ∃ s1, RegisterActor chk s (some a) = .ok s1 := by
  cases he : (s.Actors a).eligible with
  | false => exact ⟨s, RegisterActor_rejected chk s a he⟩
  | true =>
    cases hτ : tableOf (s.tickGroupOf a) with
    | some τ => exact ⟨_, RegisterActor_table chk s a he hτ⟩
    | none =>
      rcases h with h | h
      · subst h
        exact ⟨_, by rw [RegisterActor_noTable false s a he hτ]; rfl⟩
      · exact absurd hτ h

theorem RegisterActor_table_frame (chk : Bool) (s s1 : State) (a : ActorId) (σ : ETable)
    (hσ : σ.group ≠ s.tickGroupOf a) (h : RegisterActor chk s (some a) = .ok s1) :
    s1.table σ = s.table σ := by
  cases he : (s.Actors a).eligible with
  | false =>
    rw [RegisterActor_rejected chk s a he] at h
    cases h
    rfl
  | true =>
    cases hτ : tableOf (s.tickGroupOf a) with
    | some τ =>
      rw [RegisterActor_table chk s a he hτ] at h
      cases h
      have : σ ≠ τ := by
        rintro rfl
        exact hσ (tableOf_eq_some.1 hτ)
      simp [this]
    | none =>
      rw [RegisterActor_noTable chk s a he hτ] at h
      cases chk
      · simp only [Bool.false_eq_true, if_false, Except.ok.injEq] at h
        subst h
        simp
      · simp at h

/-! ## The invariant of the four sets -/

theorem group_injective {τ σ : ETable} (h : τ.group = σ.group) : τ = σ := by
  cases τ <;> cases σ <;> simp [ETable.group] at h ⊢

theorem Inv_initial (actors : ActorId → AActor) : (State.initial actors).Inv := by
  intro τ
  have h : (State.initial actors).table τ = [] := by cases τ <;> rfl
  rw [h]
  exact ⟨by simp, List.Pairwise.nil, by simp, by simp⟩

theorem TableInv.not_mem_of_eligible {actors : ActorId → AActor} {g : ETickingGroup} {t : TSet}
    (hI : TableInv actors g t) {a : ActorId} (ha : (actors a).eligible = true) :
    a ∉ GetCompactLinearArrayFromContainers t := by
  rw [mem_compact_iff]
  rintro ⟨c, hc, hm⟩
  have := (hI.members c hc a hm).2.2
  rw [ha] at this
  cases this

theorem TableInv.not_mem_of_group {actors : ActorId → AActor} {g : ETickingGroup} {t : TSet}
    (hI : TableInv actors g t) {a : ActorId} (ha : (actors a).PrimaryActorTick.TickGroup ≠ g) :
    a ∉ GetCompactLinearArrayFromContainers t := by
  rw [mem_compact_iff]
  rintro ⟨c, hc, hm⟩
  exact ha (hI.members c hc a hm).2.1

theorem TableInv.tail {actors : ActorId → AActor} {g : ETickingGroup}
    {c : FTickAggregateContainer} {cs : TSet} (hI : TableInv actors g (c :: cs)) :
    TableInv actors g cs :=
  ⟨fun d hd => hI.group d (List.mem_cons_of_mem _ hd),
    (List.pairwise_cons.1 hI.classes).2,
    fun d hd => hI.members d (List.mem_cons_of_mem _ hd),
    fun d hd => hI.nodup d (List.mem_cons_of_mem _ hd)⟩

theorem TableInv.congr_actors {actors actors1 : ActorId → AActor} {g : ETickingGroup} {t : TSet}
    (hI : TableInv actors g t)
    (h : ∀ a ∈ GetCompactLinearArrayFromContainers t, actors1 a = actors a) :
    TableInv actors1 g t := by
  refine ⟨hI.group, hI.classes, ?_, hI.nodup⟩
  intro c hc a ha
  rw [h a ((mem_compact_iff _ _).2 ⟨c, hc, ha⟩)]
  exact hI.members c hc a ha

theorem TableInv.insertActor {actors : ActorId → AActor} {g : ETickingGroup} {t : TSet}
    (hI : TableInv actors g t) {a : ActorId} {cls : FName}
    (hcls : (actors a).Class = cls) (hg : (actors a).PrimaryActorTick.TickGroup = g)
    (he : (actors a).eligible = false) (hnew : a ∉ GetCompactLinearArrayFromContainers t) :
    TableInv actors g (t.insertActor cls g a) := by
  induction t with
  | nil =>
    rw [insertActor_nil]
    refine ⟨by simp, by simp, ?_, by simp⟩
    intro c hc b hb
    simp only [List.mem_singleton] at hc
    subst hc
    simp only [List.mem_singleton] at hb
    subst hb
    exact ⟨hcls, hg, he⟩
  | cons c cs ih =>
    have hc : a ∉ c.Actors := fun hm =>
      hnew ((mem_compact_iff _ _).2 ⟨c, List.mem_cons_self _ _, hm⟩)
    have hcs : a ∉ GetCompactLinearArrayFromContainers cs := by
      rw [mem_compact_iff]
      rintro ⟨d, hd, hm⟩
      exact hnew ((mem_compact_iff _ _).2 ⟨d, List.mem_cons_of_mem _ hd, hm⟩)
    rw [insertActor_cons]
    by_cases hk : c.opEq { ActorClass := cls, TickGroup := g } = true
    · simp only [hk, if_true]
      obtain ⟨hkc, _⟩ := (opEq_iff c cls g).1 hk
      refine ⟨?_, ?_, ?_, ?_⟩
      · intro d hd
        rcases List.mem_cons.1 hd with rfl | hd
        · exact hI.group c (List.mem_cons_self _ _)
        · exact hI.group d (List.mem_cons_of_mem _ hd)
      · have := List.pairwise_cons.1 hI.classes
        exact List.pairwise_cons.2 ⟨this.1, this.2⟩
      · intro d hd b hb
        rcases List.mem_cons.1 hd with rfl | hd
        · simp only [List.mem_append, List.mem_singleton] at hb
          rcases hb with hb | rfl
          · exact hI.members c (List.mem_cons_self _ _) b hb
          · exact ⟨hcls.trans hkc.symm, hg, he⟩
        · exact hI.members d (List.mem_cons_of_mem _ hd) b hb
      · intro d hd
        rcases List.mem_cons.1 hd with rfl | hd
        · simp only []
          rw [List.nodup_append]
          refine ⟨hI.nodup c (List.mem_cons_self _ _), List.nodup_singleton a, ?_⟩
          intro x hx hx1
          simp only [List.mem_singleton] at hx1
          subst hx1
          exact hc hx
        · exact hI.nodup d (List.mem_cons_of_mem _ hd)
    · simp only [hk, Bool.false_eq_true, if_false]
      have ih1 := ih hI.tail hcs
      have hgc : c.TickGroup = g := hI.group c (List.mem_cons_self _ _)
      have hcc : c.ActorClass ≠ cls := fun h => hk ((opEq_iff c cls g).2 ⟨h, hgc⟩)
      refine ⟨?_, ?_, ?_, ?_⟩
      · intro d hd
        rcases List.mem_cons.1 hd with rfl | hd
        · exact hgc
        · exact ih1.group d hd
      · refine List.pairwise_cons.2 ⟨?_, ih1.classes⟩
        intro d hd
        have hsub : d ∈ cs ∨ d.ActorClass = cls := by
          clear ih ih1 hI hcs hnew
          induction cs with
          | nil =>
            rw [insertActor_nil] at hd
            simp only [List.mem_singleton] at hd
            exact Or.inr (by rw [hd])
          | cons e es ihe =>
            rw [insertActor_cons] at hd
            split at hd
            · rename_i hke
              rcases List.mem_cons.1 hd with rfl | hd
              · exact Or.inr ((opEq_iff e cls g).1 hke).1
              · exact Or.inl (List.mem_cons_of_mem _ hd)
            · rcases List.mem_cons.1 hd with rfl | hd
              · exact Or.inl (List.mem_cons_self _ _)
              · rcases ihe hd with h | h
                · exact Or.inl (List.mem_cons_of_mem _ h)
                · exact Or.inr h
        rcases hsub with hd1 | hd1
        · exact (List.pairwise_cons.1 hI.classes).1 d hd1
        · rw [hd1]
          exact hcc
      · intro d hd b hb
        rcases List.mem_cons.1 hd with rfl | hd
        · exact hI.members d (List.mem_cons_self _ _) b hb
        · exact ih1.members d hd b hb
      · intro d hd
        rcases List.mem_cons.1 hd with rfl | hd
        · exact hI.nodup d (List.mem_cons_self _ _)
        · exact ih1.nodup d hd

theorem mem_eraseActor_cases (t : TSet) (cls : FName) (g : ETickingGroup) (a : ActorId)
    (d : FTickAggregateContainer) (hd : d ∈ t.eraseActor cls g a) :
    ∃ c ∈ t, d.ActorClass = c.ActorClass ∧ d.TickGroup = c.TickGroup
      ∧ (d.Actors = c.Actors ∨ d.Actors = TArray.Remove c.Actors a) := by
  induction t with
  | nil => simp [eraseActor_nil] at hd
  | cons c cs ih =>
    rw [eraseActor_cons] at hd
    split at hd
    · rcases List.mem_cons.1 hd with rfl | hd
      · exact ⟨c, List.mem_cons_self _ _, rfl, rfl, Or.inr rfl⟩
      · exact ⟨d, List.mem_cons_of_mem _ hd, rfl, rfl, Or.inl rfl⟩
    · rcases List.mem_cons.1 hd with rfl | hd
      · exact ⟨d, List.mem_cons_self _ _, rfl, rfl, Or.inl rfl⟩
      · obtain ⟨e, he, h⟩ := ih hd
        exact ⟨e, List.mem_cons_of_mem _ he, h⟩

theorem pairwise_class_eraseActor (t : TSet) (cls : FName) (g : ETickingGroup) (a : ActorId)
    (h : t.Pairwise (fun c d => c.ActorClass ≠ d.ActorClass)) :
    (t.eraseActor cls g a).Pairwise (fun c d => c.ActorClass ≠ d.ActorClass) := by
  induction t with
  | nil => simp [eraseActor_nil]
  | cons c cs ih =>
    obtain ⟨h1, h2⟩ := List.pairwise_cons.1 h
    rw [eraseActor_cons]
    split
    · exact List.pairwise_cons.2 ⟨h1, h2⟩
    · refine List.pairwise_cons.2 ⟨?_, ih h2⟩
      intro d hd
      obtain ⟨e, he, hce, _⟩ := mem_eraseActor_cases cs cls g a d hd
      rw [hce]
      exact h1 e he

theorem TableInv.eraseActor {actors : ActorId → AActor} {g : ETickingGroup} {t : TSet}
    (hI : TableInv actors g t) (cls : FName) (a : ActorId) :
    TableInv actors g (t.eraseActor cls g a) := by
  refine ⟨?_, pairwise_class_eraseActor t cls g a hI.classes, ?_, ?_⟩
  · intro d hd
    obtain ⟨e, he, _, hg, _⟩ := mem_eraseActor_cases t cls g a d hd
    rw [hg]
    exact hI.group e he
  · intro d hd b hb
    obtain ⟨e, he, hc, _, hA⟩ := mem_eraseActor_cases t cls g a d hd
    rw [hc]
    rcases hA with hA | hA
    · rw [hA] at hb
      exact hI.members e he b hb
    · rw [hA] at hb
      exact hI.members e he b (mem_Remove.1 hb).1
  · intro d hd
    obtain ⟨e, he, _, _, hA⟩ := mem_eraseActor_cases t cls g a d hd
    rcases hA with hA | hA
    · rw [hA]
      exact hI.nodup e he
    · rw [hA]
      exact (hI.nodup e he).filter _

theorem TableInv.mem_compact_eraseActor {actors : ActorId → AActor} {g : ETickingGroup}
    {t : TSet} (hI : TableInv actors g t) (a x : ActorId) :
    x ∈ GetCompactLinearArrayFromContainers (t.eraseActor (actors a).Class g a)
      ↔ x ∈ GetCompactLinearArrayFromContainers t ∧ x ≠ a := by
  induction t with
  | nil => simp [eraseActor_nil, GetCompactLinearArrayFromContainers]
  | cons c cs ih =>
    have ih1 := ih hI.tail
    simp only [compact_eq_flatten] at ih1 ⊢
    rw [eraseActor_cons]
    by_cases hk : c.opEq { ActorClass := (actors a).Class, TickGroup := g } = true
    · simp only [hk, if_true, List.map_cons, List.flatten_cons, List.mem_append, mem_Remove]
      obtain ⟨hkc, _⟩ := (opEq_iff c _ g).1 hk
      have hcs : x ∈ (cs.map (fun c => c.Actors)).flatten → x ≠ a := by
        rintro hx rfl
        obtain ⟨l, hl, hxl⟩ := List.mem_flatten.1 hx
        obtain ⟨d, hd, rfl⟩ := List.mem_map.1 hl
        have h1 := (hI.members d (List.mem_cons_of_mem _ hd) x hxl).1
        exact (List.pairwise_cons.1 hI.classes).1 d hd (hkc.trans h1)
      constructor
      · rintro (⟨h1, h2⟩ | h)
        · exact ⟨Or.inl h1, h2⟩
        · exact ⟨Or.inr h, hcs h⟩
      · rintro ⟨h1 | h1, h2⟩
        · exact Or.inl ⟨h1, h2⟩
        · exact Or.inr h1
    · simp only [hk, Bool.false_eq_true, if_false, List.map_cons, List.flatten_cons,
        List.mem_append, ih1]
      have hc : x ∈ c.Actors → x ≠ a := by
        rintro hx rfl
        have h1 := (hI.members c (List.mem_cons_self _ _) x hx).1
        exact hk ((opEq_iff c _ g).2 ⟨h1.symm, hI.group c (List.mem_cons_self _ _)⟩)
      constructor
      · rintro (h | ⟨h1, h2⟩)
        · exact ⟨Or.inl h, hc h⟩
        · exact ⟨Or.inr h1, h2⟩
      · rintro ⟨h1 | h1, h2⟩
        · exact Or.inl h1
        · exact Or.inr ⟨h1, h2⟩

theorem TableInv.nodup_compact {actors : ActorId → AActor} {g : ETickingGroup} {t : TSet}
    (hI : TableInv actors g t) : (GetCompactLinearArrayFromContainers t).Nodup := by
  rw [compact_eq_flatten, List.nodup_flatten]
  constructor
  · intro l hl
    obtain ⟨c, hc, rfl⟩ := List.mem_map.1 hl
    exact hI.nodup c hc
  · rw [List.pairwise_map]
    refine List.Pairwise.imp_of_mem ?_ hI.classes
    intro c d hc hd hcd x hxc hxd
    exact hcd ((hI.members c hc x hxc).1.symm.trans (hI.members d hd x hxd).1)

/-! ## The effect of the two registration members on a well-formed state -/

theorem UnregisterActor_cases (chk : Bool) (s s1 : State) (a : ActorId)
    (h : UnregisterActor chk s (some a) = .ok s1) :
    (∃ τ, tableOf (s.tickGroupOf a) = some τ
        ∧ s1 = s.setTable τ ((s.table τ).eraseActor (s.Actors a).Class τ.group a))
      ∨ (tableOf (s.tickGroupOf a) = none ∧ s1 = s) := by
  unfold UnregisterActor at h
  cases hτ : tableOf (s.tickGroupOf a) with
  | some τ =>
    rw [RemoveFromContainer_table chk s a hτ] at h
    cases h
    exact Or.inl ⟨τ, rfl, rfl⟩
  | none =>
    rw [RemoveFromContainer_noTable chk s a hτ] at h
    cases chk
    · simp only [Bool.false_eq_true, if_false, Except.ok.injEq] at h
      exact Or.inr ⟨rfl, h.symm⟩
    · simp at h

theorem UnregisterActor_returns (chk : Bool) (s : State) (a : ActorId)
    (h : chk = false ∨ tableOf (s.tickGroupOf a) ≠ none) :
    ∃ s1, UnregisterActor chk s (some a) = .ok s1 := by
  unfold UnregisterActor
  cases hτ : tableOf (s.tickGroupOf a) with
  | some τ => exact ⟨_, RemoveFromContainer_table chk s a hτ⟩
  | none =>
    rcases h with h | h
    · subst h
      exact ⟨s, by rw [RemoveFromContainer_noTable false s a hτ]; rfl⟩
    · exact absurd hτ h

theorem UnregisterActor_Actors (chk : Bool) (s s1 : State) (a : ActorId)
    (h : UnregisterActor chk s (some a) = .ok s1) : s1.Actors = s.Actors := by
  rcases UnregisterActor_cases chk s s1 a h with ⟨τ, _, rfl⟩ | ⟨_, rfl⟩
  · simp
  · rfl

theorem Inv_unregister (chk : Bool) (s s1 : State) (a : ActorId) (hI : s.Inv)
    (h : UnregisterActor chk s (some a) = .ok s1) : s1.Inv := by
  rcases UnregisterActor_cases chk s s1 a h with ⟨τ, _, rfl⟩ | ⟨_, rfl⟩
  · intro σ
    simp only [table_setTable, Actors_setTable]
    by_cases hσ : σ = τ
    · subst hσ
      simp only [if_true]
      exact (hI σ).eraseActor _ a
    · simp only [hσ, if_false]
      exact hI σ
  · exact hI

theorem mem_compact_unregister (chk : Bool) (s s1 : State) (a : ActorId) (hI : s.Inv)
    (h : UnregisterActor chk s (some a) = .ok s1) (σ : ETable) (x : ActorId) :
    x ∈ GetCompactLinearArrayFromContainers (s1.table σ)
      ↔ x ∈ GetCompactLinearArrayFromContainers (s.table σ) ∧ x ≠ a := by
  have hout : ∀ ρ : ETable, ρ.group ≠ s.tickGroupOf a →
      (x ∈ GetCompactLinearArrayFromContainers (s.table ρ)
        ↔ x ∈ GetCompactLinearArrayFromContainers (s.table ρ) ∧ x ≠ a) := by
    intro ρ hρ
    constructor
    · intro hx
      refine ⟨hx, ?_⟩
      rintro rfl
      exact (hI ρ).not_mem_of_group (fun e => hρ e.symm) hx
    · exact fun hx => hx.1
  rcases UnregisterActor_cases chk s s1 a h with ⟨τ, hτ, rfl⟩ | ⟨hτ, rfl⟩
  · simp only [table_setTable]
    by_cases hσ : σ = τ
    · subst hσ
      simp only [if_true]
      exact (hI σ).mem_compact_eraseActor a x
    · simp only [hσ, if_false]
      apply hout
      intro e
      exact hσ (group_injective (e.trans (tableOf_eq_some.1 hτ).symm))
  · apply hout
    exact tableOf_eq_none.1 hτ σ

theorem RegisterActor_cases (chk : Bool) (s s1 : State) (a : ActorId)
    (h : RegisterActor chk s (some a) = .ok s1) :
    ((s.Actors a).eligible = false ∧ s1 = s)
      ∨ ((s.Actors a).eligible = true
          ∧ ∃ τ, tableOf (s.tickGroupOf a) = some τ ∧ s1 = s.afterRegister a τ)
      ∨ ((s.Actors a).eligible = true ∧ tableOf (s.tickGroupOf a) = none
          ∧ s1 = s.setActor a (s.Actors a).registered) := by
  cases he : (s.Actors a).eligible with
  | false =>
    rw [RegisterActor_rejected chk s a he] at h
    cases h
    exact Or.inl ⟨rfl, rfl⟩
  | true =>
    cases hτ : tableOf (s.tickGroupOf a) with
    | some τ =>
      rw [RegisterActor_table chk s a he hτ] at h
      cases h
      exact Or.inr (Or.inl ⟨rfl, τ, rfl, rfl⟩)
    | none =>
      rw [RegisterActor_noTable chk s a he hτ] at h
      cases chk
      · simp only [Bool.false_eq_true, if_false, Except.ok.injEq] at h
        exact Or.inr (Or.inr ⟨rfl, rfl, h.symm⟩)
      · simp at h

theorem registered_fields (v : AActor) :
    v.registered.Class = v.Class
      ∧ v.registered.PrimaryActorTick.TickGroup = v.PrimaryActorTick.TickGroup
      ∧ v.registered.eligible = false := by
  simp [AActor.registered, AActor.selfTickDisabled, AActor.eligible]

theorem Inv_setActor_registered (s : State) (a : ActorId) (hI : s.Inv) :
    (s.setActor a (s.Actors a).registered).Inv := by
  intro σ
  simp only [table_setActor]
  refine ⟨(hI σ).group, (hI σ).classes, ?_, (hI σ).nodup⟩
  intro c hc b hb
  have hm := (hI σ).members c hc b hb
  simp only [Actors_setActor]
  by_cases hba : b = a
  · subst hba
    simp only [if_true]
    obtain ⟨h1, h2, h3⟩ := registered_fields (s.Actors b)
    exact ⟨h1.trans hm.1, h2.trans hm.2.1, h3⟩
  · simpa [hba] using hm

theorem Inv_register (chk : Bool) (s s1 : State) (a : ActorId) (hI : s.Inv)
    (h : RegisterActor chk s (some a) = .ok s1) : s1.Inv := by
  rcases RegisterActor_cases chk s s1 a h with ⟨_, rfl⟩ | ⟨he, τ, hτ, rfl⟩ | ⟨_, _, rfl⟩
  · exact hI
  · have hI1 := Inv_setActor_registered s a hI
    obtain ⟨h1, h2, h3⟩ := registered_fields (s.Actors a)
    intro σ
    have hA : (s.afterRegister a τ).Actors = (s.setActor a (s.Actors a).registered).Actors := by
      funext b
      simp
    rw [hA]
    simp only [table_afterRegister]
    by_cases hσ : σ = τ
    · subst hσ
      simp only [if_true]
      have hins := (hI1 σ)
      simp only [table_setActor] at hins
      refine hins.insertActor ?_ ?_ ?_ ((hI σ).not_mem_of_eligible he)
      · simpa using h1
      · simp only [Actors_setActor, if_true]
        exact h2.trans (tableOf_eq_some.1 hτ).symm
      · simpa using h3
    · simp only [hσ, if_false]
      simpa using hI1 σ
  · exact Inv_setActor_registered s a hI

theorem mem_compact_register (chk : Bool) (s s1 : State) (a : ActorId) (hI : s.Inv)
    (h : RegisterActor chk s (some a) = .ok s1) (σ : ETable) (x : ActorId) :
    x ∈ GetCompactLinearArrayFromContainers (s1.table σ)
      ↔ x ∈ GetCompactLinearArrayFromContainers (s.table σ)
        ∨ (x = a ∧ (s.Actors a).eligible = true ∧ s.tickGroupOf a = σ.group) := by
  rcases RegisterActor_cases chk s s1 a h with ⟨he, rfl⟩ | ⟨he, τ, hτ, rfl⟩ | ⟨he, hτ, rfl⟩
  · simp [he]
  · simp only [table_afterRegister]
    have hg := tableOf_eq_some.1 hτ
    by_cases hσ : σ = τ
    · subst hσ
      simp only [if_true, mem_compact_insertActor, he, hg, true_and, and_true]
      tauto
    · simp only [hσ, if_false, he, true_and]
      have : s.tickGroupOf a ≠ σ.group := fun e => hσ (group_injective (e.symm.trans hg.symm))
      simp [this]
  · simp only [table_setActor, he, true_and]
    have : s.tickGroupOf a ≠ σ.group := fun e => tableOf_eq_none.1 hτ σ e.symm
    simp [this]

theorem RegisterActor_fixed (chk : Bool) (s s1 : State) (a : ActorId)
    (h : RegisterActor chk s (some a) = .ok s1) (b : ActorId) :
    (s1.Actors b).Class = (s.Actors b).Class
      ∧ (s1.Actors b).PrimaryActorTick.TickGroup = (s.Actors b).PrimaryActorTick.TickGroup := by
  obtain ⟨h1, h2, _⟩ := registered_fields (s.Actors a)
  rcases RegisterActor_cases chk s s1 a h with ⟨_, rfl⟩ | ⟨_, τ, _, rfl⟩ | ⟨_, _, rfl⟩
  · exact ⟨rfl, rfl⟩
  · by_cases hb : b = a
    · subst hb
      simpa using ⟨h1, h2⟩
    · simp [hb]
  · by_cases hb : b = a
    · subst hb
      simpa using ⟨h1, h2⟩
    · simp [hb]

theorem RegisterActor_eligible (chk : Bool) (s s1 : State) (a : ActorId)
    (h : RegisterActor chk s (some a) = .ok s1) (b : ActorId) :
    (s1.Actors b).eligible = if b = a then false else (s.Actors b).eligible := by
  obtain ⟨_, _, h3⟩ := registered_fields (s.Actors a)
  rcases RegisterActor_cases chk s s1 a h with ⟨he, rfl⟩ | ⟨_, τ, _, rfl⟩ | ⟨_, _, rfl⟩
  · by_cases hb : b = a
    · subst hb
      simpa using he
    · simp [hb]
  · by_cases hb : b = a
    · subst hb
      simpa using h3
    · simp [hb]
  · by_cases hb : b = a
    · subst hb
      simpa using h3
    · simp [hb]

/-! ## Sequences of calls -/

theorem Agrees_initial (actors : ActorId → AActor) :
    Agrees (State.initial actors) (SpecState.initial actors) := by
  refine ⟨fun a => rfl, ?_, ?_⟩
  · intro a h
    simp [SpecState.initial] at h
  · intro a τ
    have h : (State.initial actors).table τ = [] := by cases τ <;> rfl
    simp [h, GetCompactLinearArrayFromContainers, SpecState.initial]

theorem Agrees_register (chk : Bool) (s s1 : State) (σ : SpecState) (a : ActorId) (hI : s.Inv)
    (hA : Agrees s σ) (h : RegisterActor chk s (some a) = .ok s1) :
    Agrees s1 (σ.registerEntity a) := by
  obtain ⟨hA1, hA2, hA3⟩ := hA
  have hel := RegisterActor_eligible chk s s1 a h
  have hfx := RegisterActor_fixed chk s s1 a h
  have hmem := mem_compact_register chk s s1 a hI h
  unfold SpecState.registerEntity
  cases he : (s.Actors a).eligible with
  | false =>
    have hs : σ.selfTicking a = false := by rw [hA1, he]
    simp only [hs, Bool.false_eq_true, if_false]
    refine ⟨?_, ?_, ?_⟩
    · intro b
      rw [hA1, hel]
      by_cases hb : b = a
      · subst hb
        simp [he]
      · simp [hb]
    · intro b hb
      rw [hel]
      by_cases hba : b = a
      · simp [hba]
      · simpa [hba] using hA2 b hb
    · intro b τ
      rw [hmem, (hfx b).2, ← hA3]
      simp [he]
  | true =>
    have hs : σ.selfTicking a = true := by rw [hA1, he]
    simp only [hs, if_true]
    refine ⟨?_, ?_, ?_⟩
    · intro b
      rw [hel]
      by_cases hb : b = a
      · simp [hb]
      · simp [hb, hA1]
    · intro b hb
      rw [hel]
      by_cases hba : b = a
      · simp [hba]
      · simp only [hba, if_false] at hb ⊢
        exact hA2 b hb
    · intro b τ
      rw [hmem, (hfx b).2]
      by_cases hb : b = a
      · subst hb
        have hn : b ∉ GetCompactLinearArrayFromContainers (s.table τ) :=
          (hI τ).not_mem_of_eligible he
        simp [hn, he, State.tickGroupOf]
      · simp only [hb, if_false, false_and, or_false]
        exact hA3 b τ

theorem Agrees_unregister (chk : Bool) (s s1 : State) (σ : SpecState) (a : ActorId) (hI : s.Inv)
    (hA : Agrees s σ) (h : UnregisterActor chk s (some a) = .ok s1) :
    Agrees s1 (σ.unregisterEntity a) := by
  obtain ⟨hA1, hA2, hA3⟩ := hA
  have hact := UnregisterActor_Actors chk s s1 a h
  have hmem := mem_compact_unregister chk s s1 a hI h
  unfold SpecState.unregisterEntity
  refine ⟨?_, ?_, ?_⟩
  · intro b
    rw [hact]
    exact hA1 b
  · intro b hb
    rw [hact]
    by_cases hba : b = a
    · simp [hba] at hb
    · simp only [hba, if_false] at hb
      exact hA2 b hb
  · intro b τ
    rw [hmem, hact, hA3]
    by_cases hba : b = a
    · simp [hba]
    · simp [hba]

theorem runCalls_invariants (chk : Bool) (calls : List Call) (s s1 : State) (σ : SpecState)
    (hI : s.Inv) (hA : Agrees s σ) (h : runCalls chk s calls = .ok s1) :
    s1.Inv ∧ Agrees s1 (σ.run calls)
      ∧ ∀ b, (s1.Actors b).Class = (s.Actors b).Class
          ∧ (s1.Actors b).PrimaryActorTick.TickGroup = (s.Actors b).PrimaryActorTick.TickGroup := by
  induction calls generalizing s σ with
  | nil =>
    simp only [runCalls, Except.ok.injEq] at h
    subst h
    exact ⟨hI, hA, fun _ => ⟨rfl, rfl⟩⟩
  | cons c cs ih =>
    simp only [runCalls] at h
    cases hc : c.run chk s with
    | error e => simp [hc] at h
    | ok s2 =>
      simp only [hc] at h
      cases c with
      | Register a =>
        simp only [Call.run] at hc
        obtain ⟨h1, h2, h3⟩ := ih s2 (σ.registerEntity a) (Inv_register chk s s2 a hI hc)
          (Agrees_register chk s s2 σ a hI hA hc) h
        refine ⟨h1, h2, fun b => ?_⟩
        have hfx := RegisterActor_fixed chk s s2 a hc b
        exact ⟨(h3 b).1.trans hfx.1, (h3 b).2.trans hfx.2⟩
      | Unregister a =>
        simp only [Call.run] at hc
        obtain ⟨h1, h2, h3⟩ := ih s2 (σ.unregisterEntity a) (Inv_unregister chk s s2 a hI hc)
          (Agrees_unregister chk s s2 σ a hI hA hc) h
        refine ⟨h1, h2, fun b => ?_⟩
        rw [← UnregisterActor_Actors chk s s2 a hc]
        exact h3 b

theorem Reachable.inv {chk : Bool} {s : State} (h : Reachable chk s) : s.Inv := by
  obtain ⟨actors, calls, hr⟩ := h
  exact (runCalls_invariants chk calls _ s _ (Inv_initial actors) (Agrees_initial actors) hr).1

theorem runCalls_example :
    runCalls true (State.initial exampleActors) exampleCalls = .ok exampleState := rfl

theorem exampleState_PrePhysics :
    exampleState.PrePhysicsContainers
      = [{ ActorClass := 10, TickGroup := TG_PrePhysics, Actors := [0, 1, 2] },
         { ActorClass := 20, TickGroup := TG_PrePhysics, Actors := [3, 4] }] := by
  decide

theorem exampleState_PostPhysics :
    exampleState.PostPhysicsContainers
      = [{ ActorClass := 30, TickGroup := TG_PostPhysics, Actors := [] }] := by
  decide

theorem ContiguousBy.map {α β γ : Type} (f : α → β) (key : β → γ) (l : List α)
    (h : ContiguousBy (fun x => key (f x)) l) : ContiguousBy key (l.map f) := by
  intro k
  obtain ⟨pre, block, post, rfl, h1, h2, h3⟩ := h k
  refine ⟨pre.map f, block.map f, post.map f, by simp, ?_, ?_, ?_⟩
  · intro x hx
    obtain ⟨y, hy, rfl⟩ := List.mem_map.1 hx
    exact h1 y hy
  · intro x hx
    obtain ⟨y, hy, rfl⟩ := List.mem_map.1 hx
    exact h2 y hy
  · intro x hx
    obtain ⟨y, hy, rfl⟩ := List.mem_map.1 hx
    exact h3 y hy

theorem contiguous_compact (key : ActorId → FName) (t : TSet)
    (hP : t.Pairwise (fun c d => c.ActorClass ≠ d.ActorClass))
    (hK : ∀ c ∈ t, ∀ a ∈ c.Actors, key a = c.ActorClass) :
    ContiguousBy key (GetCompactLinearArrayFromContainers t) := by
  rw [compact_eq_flatten]
  induction t with
  | nil =>
    intro k
    exact ⟨[], [], [], rfl, by simp, by simp, by simp⟩
  | cons c cs ih =>
    obtain ⟨hP1, hP2⟩ := List.pairwise_cons.1 hP
    have hKc := hK c (List.mem_cons_self _ _)
    have hKcs : ∀ d ∈ cs, ∀ a ∈ d.Actors, key a = d.ActorClass :=
      fun d hd => hK d (List.mem_cons_of_mem _ hd)
    intro k
    by_cases hk : k = c.ActorClass
    · refine ⟨[], c.Actors, (cs.map (fun c => c.Actors)).flatten, by simp, ?_, by simp, ?_⟩
      · intro x hx
        rw [hk]
        exact hKc x hx
      · intro x hx
        obtain ⟨l, hl, hxl⟩ := List.mem_flatten.1 hx
        obtain ⟨d, hd, rfl⟩ := List.mem_map.1 hl
        rw [hKcs d hd x hxl, hk]
        exact fun e => hP1 d hd e.symm
    · obtain ⟨pre, block, post, hsplit, h1, h2, h3⟩ := ih hP2 hKcs k
      refine ⟨c.Actors ++ pre, block, post, ?_, h1, ?_, h3⟩
      · simp only [List.map_cons, List.flatten_cons, hsplit, List.append_assoc]
      · intro x hx
        rcases List.mem_append.1 hx with hx | hx
        · rw [hKc x hx]
          exact fun e => hk e.symm
        · exact h2 x hx

/-! ## Update functions that unregister actors -/

theorem exampleState_run_PrePhysics :
    ∃ s1, ETable.PrePhysics.closure.call idleTick exampleState (7 : Nat)
      = .ok (s1, [(0, 7), (1, 7), (2, 7), (3, 7), (4, 7)]) :=
  ⟨exampleState, by
    rw [closure_call_eq]
    simp [State.compact, State.table, exampleState_PrePhysics,
      GetCompactLinearArrayFromContainers, TArray.Append, TickActors, idleTick]⟩

theorem unregisterAll_spec (chk : Bool) (vs : List ActorId) (s s1 : State) (hI : s.Inv)
    (h : unregisterAll chk s vs = .ok s1) :
    s1.Inv ∧ s1.Actors = s.Actors
      ∧ ∀ σ x, x ∈ GetCompactLinearArrayFromContainers (s1.table σ)
          ↔ x ∈ GetCompactLinearArrayFromContainers (s.table σ) ∧ x ∉ vs := by
  induction vs generalizing s with
  | nil =>
    simp only [unregisterAll, Except.ok.injEq] at h
    subst h
    exact ⟨hI, rfl, by simp⟩
  | cons v vs ih =>
    simp only [unregisterAll, OnActorEndPlay] at h
    cases hu : UnregisterActor chk s (some v) with
    | error e => simp [hu] at h
    | ok s2 =>
      simp only [hu] at h
      obtain ⟨h1, h2, h3⟩ := ih s2 (Inv_unregister chk s s2 v hI hu) h
      refine ⟨h1, h2.trans (UnregisterActor_Actors chk s s2 v hu), ?_⟩
      intro σ x
      rw [h3, mem_compact_unregister chk s s2 v hI hu]
      simp only [List.mem_cons, not_or]
      tauto

theorem unregisterAll_returns (chk : Bool) (vs : List ActorId) (s : State)
    (h : chk = false ∨ ∀ v ∈ vs, tableOf (s.tickGroupOf v) ≠ none) :
    ∃ s1, unregisterAll chk s vs = .ok s1 := by
  induction vs generalizing s with
  | nil => exact ⟨s, rfl⟩
  | cons v vs ih =>
    have hv : chk = false ∨ tableOf (s.tickGroupOf v) ≠ none := by
      rcases h with h | h
      · exact Or.inl h
      · exact Or.inr (h v (List.mem_cons_self _ _))
    obtain ⟨s2, hs2⟩ := UnregisterActor_returns chk s v hv
    simp only [unregisterAll, OnActorEndPlay, hs2]
    apply ih
    rcases h with h | h
    · exact Or.inl h
    · refine Or.inr (fun w hw => ?_)
      have := h w (List.mem_cons_of_mem _ hw)
      simpa [State.tickGroupOf, UnregisterActor_Actors chk s s2 v hs2] using this

theorem TickActors_unregistering {F : Type} (chk : Bool) (victims : ActorId → List ActorId)
    (dt : F) (l : List ActorId) (s : State) (calls : List (ActorId × F))
    (r : State × List (ActorId × F)) (hI : s.Inv)
    (h : TickActors (unregisteringTick chk victims) dt l s calls = .ok r) :
    r.1.Inv ∧ r.1.Actors = s.Actors
      ∧ ∀ σ x, x ∈ GetCompactLinearArrayFromContainers (r.1.table σ)
          ↔ x ∈ GetCompactLinearArrayFromContainers (s.table σ) ∧ ∀ a ∈ l, x ∉ victims a := by
  induction l generalizing s calls with
  | nil =>
    simp only [TickActors, Except.ok.injEq] at h
    subst h
    exact ⟨hI, rfl, by simp⟩
  | cons a rest ih =>
    simp only [TickActors] at h
    cases ht : unregisteringTick chk victims a dt s with
    | error e => simp [ht] at h
    | ok s2 =>
      simp only [ht] at h
      obtain ⟨u1, u2, u3⟩ := unregisterAll_spec chk (victims a) s s2 hI ht
      obtain ⟨h1, h2, h3⟩ := ih s2 _ u1 h
      refine ⟨h1, h2.trans u2, ?_⟩
      intro σ x
      rw [h3, u3]
      simp only [List.mem_cons, forall_eq_or_imp]
      tauto

theorem TickActors_unregistering_returns {F : Type} (chk : Bool)
    (victims : ActorId → List ActorId) (dt : F) (l : List ActorId) (s : State)
    (calls : List (ActorId × F))
    (h : chk = false ∨ ∀ a v, v ∈ victims a → tableOf (s.tickGroupOf v) ≠ none) :
    ∃ r, TickActors (unregisteringTick chk victims) dt l s calls = .ok r
      ∧ r.1.Actors = s.Actors := by
  induction l generalizing s calls with
  | nil => exact ⟨_, rfl, rfl⟩
  | cons a rest ih =>
    have hv : chk = false ∨ ∀ v ∈ victims a, tableOf (s.tickGroupOf v) ≠ none := by
      rcases h with h | h
      · exact Or.inl h
      · exact Or.inr (h a)
    obtain ⟨s2, hs2⟩ := unregisterAll_returns chk (victims a) s hv
    have hA : s2.Actors = s.Actors := by
      clear hv h ih
      generalize victims a = vs at hs2
      induction vs generalizing s with
      | nil =>
        simp only [unregisterAll, Except.ok.injEq] at hs2
        rw [hs2]
      | cons v vs ihv =>
        simp only [unregisterAll, OnActorEndPlay] at hs2
        cases hu : UnregisterActor chk s (some v) with
        | error e => simp [hu] at hs2
        | ok s3 =>
          simp only [hu] at hs2
          exact (ihv s3 hs2).trans (UnregisterActor_Actors chk s s3 v hu)
    have ht : unregisteringTick chk victims a dt s = .ok s2 := hs2
    simp only [TickActors, ht]
    have h2 : chk = false ∨ ∀ a v, v ∈ victims a → tableOf (s2.tickGroupOf v) ≠ none := by
      rcases h with h | h
      · exact Or.inl h
      · exact Or.inr (fun b v hv => by simpa [State.tickGroupOf, hA] using h b v hv)
    obtain ⟨r, hr, hrA⟩ := ih s2 _ h2
    exact ⟨r, hr, hrA.trans hA⟩

/-! ## Counting occurrences -/

theorem count_compact_insertActor (t : TSet) (cls : FName) (g : ETickingGroup) (a : ActorId) :
    (GetCompactLinearArrayFromContainers (t.insertActor cls g a)).count a
      = (GetCompactLinearArrayFromContainers t).count a + 1 := by
  simp only [compact_eq_flatten]
  induction t with
  | nil => simp [insertActor_nil]
  | cons c cs ih =>
    rw [insertActor_cons]
    split
    · simp only [List.map_cons, List.flatten_cons, List.count_append, List.count_singleton_self]
      omega
    · simp only [List.map_cons, List.flatten_cons, List.count_append, ih]
      omega

theorem closure_call_count {F : Type} (tick : ActorId → F → State → Except Fault State)
    (s : State) (dt : F) (τ : ETable) (r : State × List (ActorId × F))
    (h : τ.closure.call tick s dt = .ok r) (E : ActorId) :
    (r.2.map Prod.fst).count E = (GetCompactLinearArrayFromContainers (s.table τ)).count E := by
  rw [closure_call_calls tick s dt τ r h, List.map_map]
  have e : (Prod.fst ∘ fun a : ActorId => (a, dt)) = id := rfl
  rw [e, List.map_id]
  rfl

/-! ## Group keys -/

theorem pairwise_class_index (t : TSet)
    (hP : t.Pairwise (fun c d => c.ActorClass ≠ d.ActorClass)) (i j : Nat)
    (c d : FTickAggregateContainer) (hi : t[i]? = some c) (hj : t[j]? = some d)
    (hcd : c.ActorClass = d.ActorClass) : i = j := by
  induction t generalizing i j with
  | nil => simp at hi
  | cons x xs ih =>
    obtain ⟨h1, h2⟩ := List.pairwise_cons.1 hP
    cases i with
    | zero =>
      cases j with
      | zero => rfl
      | succ j =>
        simp only [List.getElem?_cons_zero, Option.some.injEq] at hi
        simp only [List.getElem?_cons_succ] at hj
        subst hi
        exact absurd hcd (h1 d (List.getElem?_mem hj))
    | succ i =>
      cases j with
      | zero =>
        simp only [List.getElem?_cons_zero, Option.some.injEq] at hj
        simp only [List.getElem?_cons_succ] at hi
        subst hj
        exact absurd hcd.symm (h1 c (List.getElem?_mem hi))
      | succ j =>
        simp only [List.getElem?_cons_succ] at hi hj
        rw [ih h2 i j hi hj]

theorem mem_insertActor_cases (t : TSet) (cls : FName) (g : ETickingGroup) (a : ActorId)
    (d : FTickAggregateContainer) (hd : d ∈ t.insertActor cls g a) :
    (∃ c ∈ t, d.ActorClass = c.ActorClass ∧ d.TickGroup = c.TickGroup)
      ∨ (d.ActorClass = cls ∧ d.TickGroup = g) := by
  induction t with
  | nil =>
    rw [insertActor_nil] at hd
    simp only [List.mem_singleton] at hd
    subst hd
    exact Or.inr ⟨rfl, rfl⟩
  | cons c cs ih =>
    rw [insertActor_cons] at hd
    split at hd
    · rcases List.mem_cons.1 hd with rfl | hd
      · exact Or.inl ⟨c, List.mem_cons_self _ _, rfl, rfl⟩
      · exact Or.inl ⟨d, List.mem_cons_of_mem _ hd, rfl, rfl⟩
    · rcases List.mem_cons.1 hd with rfl | hd
      · exact Or.inl ⟨d, List.mem_cons_self _ _, rfl, rfl⟩
      · rcases ih hd with ⟨e, he, h⟩ | h
        · exact Or.inl ⟨e, List.mem_cons_of_mem _ he, h⟩
        · exact Or.inr h

theorem KeyInv.of_insertActor {g : ETickingGroup} {t : TSet} (hI : KeyInv g t) (cls : FName)
    (a : ActorId) : KeyInv g (t.insertActor cls g a) := by
  constructor
  · intro d hd
    rcases mem_insertActor_cases t cls g a d hd with ⟨c, hc, _, h⟩ | ⟨_, h⟩
    · rw [h]
      exact hI.group c hc
    · exact h
  · have hgroup := hI.group
    have hclasses := hI.classes
    clear hI
    induction t with
    | nil => simp [insertActor_nil]
    | cons c cs ih =>
      obtain ⟨h1, h2⟩ := List.pairwise_cons.1 hclasses
      rw [insertActor_cons]
      by_cases hk : c.opEq { ActorClass := cls, TickGroup := g } = true
      · simp only [hk, if_true]
        exact List.pairwise_cons.2 ⟨h1, h2⟩
      · simp only [hk, Bool.false_eq_true, if_false]
        refine List.pairwise_cons.2
          ⟨?_, ih (fun d hd => hgroup d (List.mem_cons_of_mem _ hd)) h2⟩
        intro d hd
        rcases mem_insertActor_cases cs cls g a d hd with ⟨e, he, hce, _⟩ | ⟨hdc, _⟩
        · rw [hce]
          exact h1 e he
        · rw [hdc]
          exact fun h => hk ((opEq_iff c cls g).2 ⟨h, hgroup c (List.mem_cons_self _ _)⟩)

theorem KeyInv.of_eraseActor {g : ETickingGroup} {t : TSet} (hI : KeyInv g t) (cls : FName)
    (a : ActorId) : KeyInv g (t.eraseActor cls g a) := by
  constructor
  · intro d hd
    obtain ⟨e, he, _, hg, _⟩ := mem_eraseActor_cases t cls g a d hd
    rw [hg]
    exact hI.group e he
  · exact pairwise_class_eraseActor t cls g a hI.classes

theorem AddToContainer_cases (chk : Bool) (s s1 : State) (p : AActorPtr)
    (h : AddToContainer chk s p = .ok s1) :
    s1 = s ∨ ∃ a τ, p = some a ∧ tableOf (s.tickGroupOf a) = some τ
      ∧ s1 = s.setTable τ ((s.table τ).insertActor (s.Actors a).Class τ.group a) := by
  cases p with
  | none =>
    simp only [AddToContainer, Except.ok.injEq] at h
    exact Or.inl h.symm
  | some a =>
    cases hτ : tableOf (s.tickGroupOf a) with
    | some τ =>
      rw [AddToContainer_table chk s a hτ] at h
      cases h
      exact Or.inr ⟨a, τ, rfl, hτ, rfl⟩
    | none =>
      rw [AddToContainer_noTable chk s a hτ] at h
      cases chk
      · simp only [Bool.false_eq_true, if_false, Except.ok.injEq] at h
        exact Or.inl h.symm
      · simp at h

theorem RemoveFromContainer_cases (chk : Bool) (s s1 : State) (p : AActorPtr)
    (h : RemoveFromContainer chk s p = .ok s1) :
    s1 = s ∨ ∃ a τ, p = some a ∧ tableOf (s.tickGroupOf a) = some τ
      ∧ s1 = s.setTable τ ((s.table τ).eraseActor (s.Actors a).Class τ.group a) := by
  cases p with
  | none =>
    simp only [RemoveFromContainer, Except.ok.injEq] at h
    exact Or.inl h.symm
  | some a =>
    rcases UnregisterActor_cases chk s s1 a h with ⟨τ, hτ, rfl⟩ | ⟨_, rfl⟩
    · exact Or.inr ⟨a, τ, rfl, hτ, rfl⟩
    · exact Or.inl rfl

theorem KeyInv_containerCall (chk : Bool) (s s1 : State) (c : ContainerCall)
    (hI : ∀ τ : ETable, KeyInv τ.group (s.table τ)) (h : c.run chk s = .ok s1) :
    ∀ τ : ETable, KeyInv τ.group (s1.table τ) := by
  intro σ
  cases c with
  | Add p =>
    rcases AddToContainer_cases chk s s1 p h with rfl | ⟨a, τ, _, _, rfl⟩
    · exact hI σ
    · simp only [table_setTable]
      by_cases hσ : σ = τ
      · subst hσ
        simp only [if_true]
        exact (hI σ).of_insertActor _ a
      · simp only [hσ, if_false]
        exact hI σ
  | Remove p =>
    rcases RemoveFromContainer_cases chk s s1 p h with rfl | ⟨a, τ, _, _, rfl⟩
    · exact hI σ
    · simp only [table_setTable]
      by_cases hσ : σ = τ
      · subst hσ
        simp only [if_true]
        exact (hI σ).of_eraseActor _ a
      · simp only [hσ, if_false]
        exact hI σ

theorem KeyInv_runContainerCalls (chk : Bool) (calls : List ContainerCall) (s s1 : State)
    (hI : ∀ τ : ETable, KeyInv τ.group (s.table τ)) (h : runContainerCalls chk s calls = .ok s1) :
    ∀ τ : ETable, KeyInv τ.group (s1.table τ) := by
  induction calls generalizing s with
  | nil =>
    simp only [runContainerCalls, Except.ok.injEq] at h
    subst h
    exact hI
  | cons c cs ih =>
    simp only [runContainerCalls] at h
    cases hc : c.run chk s with
    | error e => simp [hc] at h
    | ok s2 =>
      simp only [hc] at h
      exact ih s2 (KeyInv_containerCall chk s s2 c hI hc) h

theorem runContainerCalls_example :
    runContainerCalls true (State.initial exampleActors) exampleContainerCalls
      = .ok exampleContainerState := rfl

theorem exampleContainerState_PrePhysics :
    exampleContainerState.PrePhysicsContainers
      = [{ ActorClass := 10, TickGroup := TG_PrePhysics, Actors := [0, 0] },
         { ActorClass := 20, TickGroup := TG_PrePhysics, Actors := [] }] := by
  decide

theorem map_key_insertActor (t : TSet) (cls : FName) (g : ETickingGroup) (a : ActorId) :
    (t.insertActor cls g a).map FTickAggregateContainer.key
      = t.map FTickAggregateContainer.key
        ++ if (TSet.Find t { ActorClass := cls, TickGroup := g }).isSome then [] else [(cls, g)] := by
  induction t with
  | nil => simp [insertActor_nil, TSet.Find, FTickAggregateContainer.key]
  | cons c cs ih =>
    rw [insertActor_cons]
    by_cases hk : c.opEq { ActorClass := cls, TickGroup := g } = true
    · simp [hk, TSet.Find, FTickAggregateContainer.key]
    · simp only [hk, Bool.false_eq_true, if_false, List.map_cons, ih, TSet.Find,
        List.cons_append]
      cases TSet.Find cs { ActorClass := cls, TickGroup := g } <;> simp

theorem map_key_eraseActor (t : TSet) (cls : FName) (g : ETickingGroup) (a : ActorId) :
    (t.eraseActor cls g a).map FTickAggregateContainer.key
      = t.map FTickAggregateContainer.key := by
  induction t with
  | nil => rfl
  | cons c cs ih =>
    rw [eraseActor_cons]
    split
    · simp [FTickAggregateContainer.key]
    · simp [ih]

theorem getElem_eraseActor_found (t : TSet) (cls : FName) (g : ETickingGroup) (a : ActorId)
    (i : Nat) (c : FTickAggregateContainer)
    (hf : TSet.Find t { ActorClass := cls, TickGroup := g } = some i) (hc : t[i]? = some c) :
    (t.eraseActor cls g a)[i]? = some { c with Actors := TArray.Remove c.Actors a } := by
  induction t generalizing i with
  | nil => simp at hc
  | cons x xs ih =>
    rw [eraseActor_cons]
    by_cases hk : x.opEq { ActorClass := cls, TickGroup := g } = true
    · simp only [TSet.Find, hk, if_true, Option.some.injEq] at hf
      subst hf
      simp only [List.getElem?_cons_zero, Option.some.injEq] at hc
      subst hc
      simp [hk]
    · simp only [TSet.Find, hk, Bool.false_eq_true, if_false] at hf
      cases hj : TSet.Find xs { ActorClass := cls, TickGroup := g } with
      | none => simp [hj] at hf
      | some j =>
        simp only [hj, Option.map_some', Option.some.injEq] at hf
        subst hf
        simp only [List.getElem?_cons_succ] at hc
        simp only [hk, Bool.false_eq_true, if_false, List.getElem?_cons_succ]
        exact ih j hj hc

theorem Remove_eq_nil {a : ActorId} {l : List ActorId} (h : ∀ x ∈ l, x = a) :
    TArray.Remove l a = [] := by
  unfold TArray.Remove
  rw [List.filter_eq_nil_iff]
  intro x hx
  simp [h x hx]

/-! ## The self-tick flags are never set again -/

theorem NoFlagRaised.refl (s : State) : NoFlagRaised s s :=
  fun _ => ⟨id, id⟩

theorem NoFlagRaised.trans {s s1 s2 : State} (h1 : NoFlagRaised s s1)
    (h2 : NoFlagRaised s1 s2) : NoFlagRaised s s2 :=
  fun b => ⟨fun h => (h1 b).1 ((h2 b).1 h), fun h => (h1 b).2 ((h2 b).2 h)⟩

theorem NoFlagRaised.of_Actors_eq {s s1 : State} (h : s1.Actors = s.Actors) :
    NoFlagRaised s s1 := by
  intro b
  rw [h]
  exact ⟨id, id⟩

theorem registered_flags (v : AActor) :
    v.registered.PrimaryActorTick.bCanEverTick = false
      ∧ v.registered.PrimaryActorTick.bStartWithTickEnabled = false := by
  simp [AActor.registered, AActor.selfTickDisabled]

theorem NoFlagRaised_RegisterActor (chk : Bool) (s s1 : State) (p : AActorPtr)
    (h : RegisterActor chk s p = .ok s1) : NoFlagRaised s s1 := by
  cases p with
  | none => simp [RegisterActor] at h
  | some a =>
    obtain ⟨f1, f2⟩ := registered_flags (s.Actors a)
    rcases RegisterActor_cases chk s s1 a h with ⟨_, rfl⟩ | ⟨_, τ, _, rfl⟩ | ⟨_, _, rfl⟩
    · exact NoFlagRaised.refl _
    · intro b
      by_cases hb : b = a
      · subst hb
        simp [f1, f2]
      · simp [hb]
    · intro b
      by_cases hb : b = a
      · subst hb
        simp [f1, f2]
      · simp [hb]

theorem AddToContainer_Actors (chk : Bool) (s s1 : State) (p : AActorPtr)
    (h : AddToContainer chk s p = .ok s1) : s1.Actors = s.Actors := by
  rcases AddToContainer_cases chk s s1 p h with rfl | ⟨a, τ, _, _, rfl⟩
  · rfl
  · simp

theorem RemoveFromContainer_Actors (chk : Bool) (s s1 : State) (p : AActorPtr)
    (h : RemoveFromContainer chk s p = .ok s1) : s1.Actors = s.Actors := by
  rcases RemoveFromContainer_cases chk s s1 p h with rfl | ⟨a, τ, _, _, rfl⟩
  · rfl
  · simp

theorem NoFlagRaised_registerMarkedActors (chk : Bool) (ps : List AActorPtr) (s s1 : State)
    (h : registerMarkedActors chk s ps = .ok s1) : NoFlagRaised s s1 := by
  induction ps generalizing s with
  | nil =>
    simp only [registerMarkedActors, Except.ok.injEq] at h
    subst h
    exact NoFlagRaised.refl s
  | cons p ps ih =>
    cases p with
    | none =>
      simp only [registerMarkedActors] at h
      exact ih s h
    | some a =>
      simp only [registerMarkedActors] at h
      split at h
      · cases hr : RegisterActor chk s (some a) with
        | error e => simp [hr] at h
        | ok s2 =>
          simp only [hr] at h
          exact (NoFlagRaised_RegisterActor chk s s2 (some a) hr).trans (ih s2 h)
      · exact ih s h

theorem Init_cases (chk : Bool) (f f1 : FTickAggregatorTickFunction) (g : ETickingGroup)
    (w : Option UWorld) (c : ETickClosure) (b : Bool)
    (h : f.Init chk g (some w) (some c) = .ok (f1, b)) :
    (w = none ∧ f1 = f ∧ b = false)
      ∨ ∃ world, w = some world ∧ b = world.bHasCurrentLevel
          ∧ f1 = { f with TickGroup := g, Owner := true, TickFunction := some c,
                          bRegistered := world.bHasCurrentLevel || f.bRegistered } := by
  cases w with
  | none =>
    simp only [FTickAggregatorTickFunction.Init, Except.ok.injEq, Prod.mk.injEq] at h
    exact Or.inl ⟨rfl, h.1.symm, h.2.symm⟩
  | some world =>
    refine Or.inr ⟨world, rfl, ?_⟩
    cases hl : world.bHasCurrentLevel <;>
      simp only [FTickAggregatorTickFunction.Init, check, hl, Option.isSome_some, Bool.not_true,
        Bool.and_false, Bool.false_eq_true, if_false, Bool.not_false, if_true, Except.ok.injEq,
        Prod.mk.injEq] at h <;>
      exact ⟨h.2.symm, h.1.symm⟩

theorem Init_returns (chk : Bool) (f : FTickAggregatorTickFunction) (g : ETickingGroup)
    (w : Option UWorld) (c : ETickClosure) :
    ∃ f1 b, f.Init chk g (some w) (some c) = .ok (f1, b) := by
  cases w with
  | none => exact ⟨_, _, rfl⟩
  | some world =>
    cases hl : world.bHasCurrentLevel <;>
      simp [FTickAggregatorTickFunction.Init, check, hl]

theorem RegisterTickFunctions_frame (chk : Bool) (s s1 : State)
    (h : RegisterTickFunctions chk s = .ok s1) :
    s1.Actors = s.Actors ∧ s1.World = s.World ∧ ∀ τ, s1.table τ = s.table τ := by
  unfold RegisterTickFunctions at h
  obtain ⟨f1, b1, e1⟩ := Init_returns chk s.PrePhysicsTickFunction TG_PrePhysics s.World
    .callTick_PrePhysics
  obtain ⟨f2, b2, e2⟩ := Init_returns chk s.DuringPhysicsTickFunction TG_DuringPhysics s.World
    .callTick_DuringPhysics
  obtain ⟨f3, b3, e3⟩ := Init_returns chk s.PostPhysicsTickFunction TG_PostPhysics s.World
    .callTick_PostPhysics
  obtain ⟨f4, b4, e4⟩ := Init_returns chk s.PostUpdateWorkTickFunction TG_PostUpdateWork s.World
    .callTick_PostUpdateWork
  simp only [e1, e2, e3, e4, Except.ok.injEq] at h
  subst h
  refine ⟨rfl, rfl, ?_⟩
  intro τ
  cases τ <;> rfl

theorem Initialize_Actors (chk : Bool) (s s1 : State) (h : Initialize chk s = .ok s1) :
    s1.Actors = s.Actors := by
  unfold Initialize at h
  split at h
  · simp only [Except.ok.injEq] at h
    rw [← h]
  · split at h
    · simp only [Except.ok.injEq] at h
      rw [← h]
    · cases hr : RegisterTickFunctions chk s with
      | error e => simp [hr] at h
      | ok s2 =>
        simp only [hr, Except.ok.injEq] at h
        rw [← h]
        exact (RegisterTickFunctions_frame chk s s2 hr).1

theorem unregisterAll_Actors (chk : Bool) (vs : List ActorId) (s s1 : State)
    (h : unregisterAll chk s vs = .ok s1) : s1.Actors = s.Actors := by
  induction vs generalizing s with
  | nil =>
    simp only [unregisterAll, Except.ok.injEq] at h
    rw [h]
  | cons v vs ih =>
    simp only [unregisterAll, OnActorEndPlay] at h
    cases hu : UnregisterActor chk s (some v) with
    | error e => simp [hu] at h
    | ok s2 =>
      simp only [hu] at h
      exact (ih s2 h).trans (UnregisterActor_Actors chk s s2 v hu)

theorem TickActors_unregistering_Actors {F : Type} (chk : Bool)
    (victims : ActorId → List ActorId) (dt : F) (l : List ActorId) (s : State)
    (calls : List (ActorId × F)) (r : State × List (ActorId × F))
    (h : TickActors (unregisteringTick chk victims) dt l s calls = .ok r) :
    r.1.Actors = s.Actors := by
  induction l generalizing s calls with
  | nil =>
    simp only [TickActors, Except.ok.injEq] at h
    rw [← h]
  | cons a rest ih =>
    simp only [TickActors] at h
    cases ht : unregisteringTick chk victims a dt s with
    | error e => simp [ht] at h
    | ok s2 =>
      simp only [ht] at h
      exact (ih s2 _ h).trans (unregisterAll_Actors chk (victims a) s s2 ht)

theorem NoFlagRaised_call (chk : Bool) (s s1 : State) (c : SubsystemCall)
    (h : c.run chk s = .ok s1) : NoFlagRaised s s1 := by
  cases c with
  | Init => exact NoFlagRaised.of_Actors_eq (Initialize_Actors chk s s1 h)
  | Deinit =>
    simp only [SubsystemCall.run, Except.ok.injEq] at h
    subst h
    exact NoFlagRaised.of_Actors_eq rfl
  | RegisterActor p => exact NoFlagRaised_RegisterActor chk s s1 p h
  | UnregisterActor p =>
    exact NoFlagRaised.of_Actors_eq (RemoveFromContainer_Actors chk s s1 p h)
  | AddToContainer p => exact NoFlagRaised.of_Actors_eq (AddToContainer_Actors chk s s1 p h)
  | RemoveFromContainer p =>
    exact NoFlagRaised.of_Actors_eq (RemoveFromContainer_Actors chk s s1 p h)
  | OnActorsFinishedInitialise b =>
    simp only [SubsystemCall.run, OnActorsFinishedInitialise] at h
    split at h
    · simp at h
    · split at h
      · simp only [Except.ok.injEq] at h
        subst h
        exact NoFlagRaised.refl s
      · exact NoFlagRaised_registerMarkedActors chk _ s s1 h
  | OnActorEndPlay p =>
    cases p with
    | none =>
      simp only [SubsystemCall.run, OnActorEndPlay, Except.ok.injEq] at h
      subst h
      exact NoFlagRaised.refl s
    | some a => exact NoFlagRaised.of_Actors_eq (UnregisterActor_Actors chk s s1 a h)
  | ExecuteTick τ victims =>
    simp only [SubsystemCall.run, FTickAggregatorTickFunction.ExecuteTick] at h
    cases hf : (s.tickFunction τ).TickFunction with
    | none => simp [hf] at h
    | some closure =>
      simp only [hf] at h
      cases hr : closure.call (unregisteringTick chk victims) s () with
      | error e => simp [hr] at h
      | ok r =>
        simp only [hr, Except.ok.injEq] at h
        subst h
        apply NoFlagRaised.of_Actors_eq
        cases closure <;>
          exact TickActors_unregistering_Actors chk victims () _ s [] r hr

theorem NoFlagRaised_runSubsystemCalls (chk : Bool) (calls : List SubsystemCall) (s s1 : State)
    (h : runSubsystemCalls chk s calls = .ok s1) : NoFlagRaised s s1 := by
  induction calls generalizing s with
  | nil =>
    simp only [runSubsystemCalls, Except.ok.injEq] at h
    subst h
    exact NoFlagRaised.refl s
  | cons c cs ih =>
    simp only [runSubsystemCalls] at h
    cases hc : c.run chk s with
    | error e => simp [hc] at h
    | ok s2 =>
      simp only [hc] at h
      exact (NoFlagRaised_call chk s s2 c hc).trans (ih s2 h)

theorem Find_append_new (t : TSet) (key c : FTickAggregateContainer)
    (hf : TSet.Find t key = none) (hc : c.opEq key = true) :
    TSet.Find (t ++ [c]) key = some t.length := by
  induction t with
  | nil => simp [TSet.Find, hc]
  | cons x xs ih =>
    by_cases hk : x.opEq key = true
    · simp [TSet.Find, hk] at hf
    · simp only [TSet.Find, hk, Bool.false_eq_true, if_false, Option.map_eq_none'] at hf
      simp [TSet.Find, hk, ih hf]

theorem insertActor_of_not_found (t : TSet) (cls : FName) (g : ETickingGroup) (a : ActorId)
    (hf : TSet.Find t { ActorClass := cls, TickGroup := g } = none) :
    t.insertActor cls g a = t ++ [{ ActorClass := cls, TickGroup := g, Actors := [a] }] := by
  unfold TSet.insertActor
  rw [hf]

theorem tableOf_eq_none_iff_not_phase (g : ETickingGroup) :
    tableOf g = none
      ↔ g ≠ TG_PrePhysics ∧ g ≠ TG_DuringPhysics ∧ g ≠ TG_PostPhysics
        ∧ g ≠ TG_PostUpdateWork := by
  cases g <;> simp [tableOf]

theorem exampleLater_run :
    RegisterActor true exampleWorldState (some 0) = .ok exampleRegisteredState
      ∧ runSubsystemCalls true exampleRegisteredState exampleLaterCalls
          = .ok exampleLaterState :=
  ⟨rfl, rfl⟩

theorem RegisterActor_clears_flags (chk : Bool) (s s1 : State) (a : ActorId)
    (he : (s.Actors a).eligible = true) (h : RegisterActor chk s (some a) = .ok s1) :
    (s1.Actors a).PrimaryActorTick.bCanEverTick = false
      ∧ (s1.Actors a).PrimaryActorTick.bStartWithTickEnabled = false := by
  obtain ⟨f1, f2⟩ := registered_flags (s.Actors a)
  rcases RegisterActor_cases chk s s1 a h with ⟨he0, _⟩ | ⟨_, τ, _, rfl⟩ | ⟨_, _, rfl⟩
  · rw [he] at he0
    cases he0
  · simp [f1, f2]
  · simp [f1, f2]

/-! ## The claims -/

/-- C1 (as stated, fails). Actor 6 of the example world has both flags set and the tick group
`TG_StartPhysics`. Without `DO_CHECK`, `RegisterActor` returns and the actor is in the compacted
output of none of the four sets; with `DO_CHECK` the call stops in `checkNoEntry()`. -/
theorem C1_counterexample :
    (exampleActors 6).PrimaryActorTick.bCanEverTick = true
      ∧ (exampleActors 6).PrimaryActorTick.bStartWithTickEnabled = true
      ∧ (∃ s1, RegisterActor false (State.initial exampleActors) (some 6) = .ok s1
          ∧ ∀ τ, 6 ∉ GetCompactLinearArrayFromContainers (s1.table τ))
      ∧ RegisterActor true (State.initial exampleActors) (some 6) = .error .checkNoEntry := by
  have he : ((State.initial exampleActors).Actors 6).eligible = true := by decide
  have hτ : tableOf ((State.initial exampleActors).tickGroupOf 6) = none := by decide
  refine ⟨by decide, by decide,
    ⟨(State.initial exampleActors).setActor 6 (exampleActors 6).registered, ?_, ?_⟩, ?_⟩
  · rw [RegisterActor_noTable false _ 6 he hτ]
    rfl
  · intro τ
    cases τ <;> simp [State.initial, State.table, State.setActor,
      GetCompactLinearArrayFromContainers]
  · rw [RegisterActor_noTable true _ 6 he hτ]
    rfl

/-- C1 (amended). For every state and every actor E with both flags set whose tick group is one
of the four groups that have a set (`tableOf` gives the set `τ`), `RegisterActor(E)` returns and
the compacted output of `τ` contains E afterwards. -/
theorem C1_registered_actor_in_compact (chk : Bool) (s : State) (E : ActorId) (τ : ETable)
    (hCan : (s.Actors E).PrimaryActorTick.bCanEverTick = true)
    (hStart : (s.Actors E).PrimaryActorTick.bStartWithTickEnabled = true)
    (hτ : tableOf (s.Actors E).PrimaryActorTick.TickGroup = some τ) :
    ∃ s1, RegisterActor chk s (some E) = .ok s1
      ∧ E ∈ GetCompactLinearArrayFromContainers (s1.table τ) := by
  refine ⟨_, RegisterActor_table chk s E ((eligible_iff _).2 ⟨hCan, hStart⟩) hτ, ?_⟩
  rw [table_afterRegister, if_pos rfl, mem_compact_insertActor]
  exact Or.inl rfl

theorem C1_registered_actor_in_compact_witness :
    ∃ s1, RegisterActor true (State.initial exampleActors) (some 0) = .ok s1
      ∧ 0 ∈ GetCompactLinearArrayFromContainers (s1.table .PrePhysics) :=
  C1_registered_actor_in_compact true (State.initial exampleActors) 0 .PrePhysics
    (by decide) (by decide) (by decide)

/-- C2. For every state and every actor E with both flags set on entry: in every state in which
`RegisterActor(E)` returns, `bCanEverTick` and `bStartWithTickEnabled` of E are both false; and
the call does return when the build has no `DO_CHECK` or the tick group of E has a set. -/
theorem C2_flags_cleared_after_register (chk : Bool) (s : State) (E : ActorId)
    (hCan : (s.Actors E).PrimaryActorTick.bCanEverTick = true)
    (hStart : (s.Actors E).PrimaryActorTick.bStartWithTickEnabled = true) :
    (∀ s1, RegisterActor chk s (some E) = .ok s1 →
        (s1.Actors E).PrimaryActorTick.bCanEverTick = false
          ∧ (s1.Actors E).PrimaryActorTick.bStartWithTickEnabled = false)
      ∧ ((chk = false ∨ tableOf (s.Actors E).PrimaryActorTick.TickGroup ≠ none) →
          ∃ s1, RegisterActor chk s (some E) = .ok s1) := by
  have he : (s.Actors E).eligible = true := (eligible_iff _).2 ⟨hCan, hStart⟩
  refine ⟨?_, RegisterActor_returns chk s E⟩
  intro s1 h
  cases hτ : tableOf (s.tickGroupOf E) with
  | some τ =>
    rw [RegisterActor_table chk s E he hτ] at h
    cases h
    simp [AActor.registered, AActor.selfTickDisabled]
  | none =>
    rw [RegisterActor_noTable chk s E he hτ] at h
    cases chk
    · simp only [Bool.false_eq_true, if_false, Except.ok.injEq] at h
      subst h
      simp [AActor.registered, AActor.selfTickDisabled]
    · simp at h

theorem C2_flags_cleared_after_register_witness :
    (∀ s1, RegisterActor false (State.initial exampleActors) (some 3) = .ok s1 →
        (s1.Actors 3).PrimaryActorTick.bCanEverTick = false
          ∧ (s1.Actors 3).PrimaryActorTick.bStartWithTickEnabled = false)
      ∧ ((false = false
            ∨ tableOf ((State.initial exampleActors).Actors 3).PrimaryActorTick.TickGroup ≠ none) →
          ∃ s1, RegisterActor false (State.initial exampleActors) (some 3) = .ok s1) :=
  C2_flags_cleared_after_register false (State.initial exampleActors) 3 (by decide) (by decide)

/-- C3. For every state and every actor E with `bCanEverTick` false or `bStartWithTickEnabled`
false, `RegisterActor(E)` returns the state it was given: the four sets and both flags of E (and
everything else) are unchanged. -/
theorem C3_ineligible_register_is_noop (chk : Bool) (s : State) (E : ActorId)
    (h : (s.Actors E).PrimaryActorTick.bCanEverTick = false
      ∨ (s.Actors E).PrimaryActorTick.bStartWithTickEnabled = false) :
    RegisterActor chk s (some E) = .ok s := by
  apply RegisterActor_rejected
  rcases h with h | h <;> simp [AActor.eligible, h]

theorem C3_ineligible_register_is_noop_witness :
    RegisterActor true
        ((State.initial exampleActors).setActor 0
          { (exampleActors 0) with
            PrimaryActorTick :=
              { (exampleActors 0).PrimaryActorTick with bStartWithTickEnabled := false } })
        (some 0)
      = .ok ((State.initial exampleActors).setActor 0
          { (exampleActors 0) with
            PrimaryActorTick :=
              { (exampleActors 0).PrimaryActorTick with bStartWithTickEnabled := false } }) :=
  C3_ineligible_register_is_noop true _ 0 (Or.inr (by decide))

/-- C4. Compaction against the registration bookkeeping of the spec. For every state reached from
the empty subsystem by register and unregister calls, every set `τ` and every actor E: E occurs
in the compacted output of `τ` exactly once when, by the spec's bookkeeping, E was registered
successfully and not unregistered since and declares the tick group of `τ`, and does not occur
otherwise; the number of classes plays no part. -/
theorem C4_compaction_is_registered_set (chk : Bool) (actors : ActorId → AActor)
    (calls : List Call) (s : State)
    (h : runCalls chk (State.initial actors) calls = .ok s) (τ : ETable) (E : ActorId) :
    (GetCompactLinearArrayFromContainers (s.table τ)).count E
      = if ((SpecState.initial actors).run calls).registered E = true
            ∧ (actors E).PrimaryActorTick.TickGroup = τ.group then 1 else 0 := by
  obtain ⟨hI, ⟨_, _, hA⟩, hfx⟩ :=
    runCalls_invariants chk calls _ s _ (Inv_initial actors) (Agrees_initial actors) h
  have hg : (s.Actors E).PrimaryActorTick.TickGroup = (actors E).PrimaryActorTick.TickGroup :=
    (hfx E).2
  have key : E ∈ GetCompactLinearArrayFromContainers (s.table τ)
      ↔ ((SpecState.initial actors).run calls).registered E = true
        ∧ (actors E).PrimaryActorTick.TickGroup = τ.group := by
    rw [hA E τ, hg]
  by_cases hm : E ∈ GetCompactLinearArrayFromContainers (s.table τ)
  · rw [if_pos (key.1 hm)]
    exact List.count_eq_one_of_mem (hI τ).nodup_compact hm
  · rw [if_neg (fun hr => hm (key.2 hr))]
    exact List.count_eq_zero_of_not_mem hm

theorem C4_compaction_is_registered_set_witness :
    runCalls true (State.initial exampleActors) exampleCalls = .ok exampleState
      ∧ (GetCompactLinearArrayFromContainers (exampleState.table .PrePhysics)).count 3
          = if ((SpecState.initial exampleActors).run exampleCalls).registered 3 = true
              ∧ (exampleActors 3).PrimaryActorTick.TickGroup = ETable.PrePhysics.group
            then 1 else 0 :=
  ⟨rfl, C4_compaction_is_registered_set true exampleActors exampleCalls exampleState rfl
    .PrePhysics 3⟩

/-- C5. Phase isolation. For every state, every actor E and every set `σ` of a tick group other
than the one E declares: in every state in which `RegisterActor(E)` returns, `σ` and its
compacted output are unchanged; so when E was not in that output before, which is the case in
every state reached from the empty subsystem by register and unregister calls, E is not in it
afterwards and a run of the phase of `σ` from the new state calls E's update zero times. The
call returns when the build has no `DO_CHECK` or the tick group of E has a set. -/
theorem C5_phase_isolation {F : Type} (chk : Bool) (s : State) (E : ActorId) (σ : ETable)
    (hσ : σ.group ≠ (s.Actors E).PrimaryActorTick.TickGroup) :
    (∀ s1, RegisterActor chk s (some E) = .ok s1 →
        s1.table σ = s.table σ
          ∧ GetCompactLinearArrayFromContainers (s1.table σ)
              = GetCompactLinearArrayFromContainers (s.table σ)
          ∧ ((E ∉ GetCompactLinearArrayFromContainers (s.table σ) ∨ Reachable chk s) →
              E ∉ GetCompactLinearArrayFromContainers (s1.table σ)
                ∧ ∀ (tick : ActorId → F → State → Except Fault State) (dt : F)
                    (r : State × List (ActorId × F)),
                    σ.closure.call tick s1 dt = .ok r → ∀ d, (E, d) ∉ r.2))
      ∧ ((chk = false ∨ tableOf (s.Actors E).PrimaryActorTick.TickGroup ≠ none) →
          ∃ s1, RegisterActor chk s (some E) = .ok s1) := by
  refine ⟨?_, RegisterActor_returns chk s E⟩
  intro s1 h
  have ht : s1.table σ = s.table σ := RegisterActor_table_frame chk s s1 E σ hσ h
  refine ⟨ht, by rw [ht], ?_⟩
  intro hpre
  have hE : E ∉ GetCompactLinearArrayFromContainers (s.table σ) := by
    rcases hpre with hpre | hpre
    · exact hpre
    · exact (hpre.inv σ).not_mem_of_group (fun e => hσ e.symm)
  refine ⟨by rw [ht]; exact hE, ?_⟩
  intro tick dt r hr d hmem
  rw [closure_call_calls tick s1 dt σ r hr] at hmem
  simp only [List.mem_map, Prod.mk.injEq] at hmem
  obtain ⟨a, ha, rfl, _⟩ := hmem
  exact hE (by simpa [State.compact, ht] using ha)

theorem C5_phase_isolation_witness :
    (∀ s1, RegisterActor true (State.initial exampleActors) (some 5) = .ok s1 →
        s1.table .PrePhysics = (State.initial exampleActors).table .PrePhysics
          ∧ GetCompactLinearArrayFromContainers (s1.table .PrePhysics)
              = GetCompactLinearArrayFromContainers
                  ((State.initial exampleActors).table .PrePhysics)
          ∧ ((5 ∉ GetCompactLinearArrayFromContainers
                  ((State.initial exampleActors).table .PrePhysics)
                ∨ Reachable true (State.initial exampleActors)) →
              5 ∉ GetCompactLinearArrayFromContainers (s1.table .PrePhysics)
                ∧ ∀ (tick : ActorId → Nat → State → Except Fault State) (dt : Nat)
                    (r : State × List (ActorId × Nat)),
                    ETable.PrePhysics.closure.call tick s1 dt = .ok r → ∀ d, (5, d) ∉ r.2))
      ∧ ((true = false
            ∨ tableOf ((State.initial exampleActors).Actors 5).PrimaryActorTick.TickGroup ≠ none) →
          ∃ s1, RegisterActor true (State.initial exampleActors) (some 5) = .ok s1) :=
  C5_phase_isolation true (State.initial exampleActors) 5 .PrePhysics (by decide)

/-- C6. For every state reached from the empty subsystem by register and unregister calls and
every set `τ`: a run of the phase of `τ` with delta time `dt` that returns has made exactly the
calls of the compacted output of `τ`, in that order and each with `dt`; no actor is called
twice, the actors called are exactly those registered under the tick group of `τ` (so there
are as many calls as registered actors), and the calls of the actors of one class stand next
to each other. The run returns when no update function faults. -/
theorem C6_phase_run_calls {F : Type} (chk : Bool) (actors : ActorId → AActor)
    (calls : List Call) (s : State)
    (h : runCalls chk (State.initial actors) calls = .ok s) (τ : ETable)
    (tick : ActorId → F → State → Except Fault State) (dt : F) :
    (∀ r, τ.closure.call tick s dt = .ok r →
        r.2 = (GetCompactLinearArrayFromContainers (s.table τ)).map (fun a => (a, dt))
          ∧ (r.2.map Prod.fst).Nodup
          ∧ (∀ E, E ∈ r.2.map Prod.fst
              ↔ ((SpecState.initial actors).run calls).registered E = true
                ∧ (actors E).PrimaryActorTick.TickGroup = τ.group)
          ∧ (∀ c ∈ r.2, c.2 = dt)
          ∧ ContiguousBy (fun c : ActorId × F => (actors c.1).Class) r.2)
      ∧ ((∀ a s0, ∃ s1, tick a dt s0 = .ok s1) → ∃ r, τ.closure.call tick s dt = .ok r) := by
  obtain ⟨hI, ⟨_, _, hA⟩, hfx0⟩ :=
    runCalls_invariants chk calls _ s _ (Inv_initial actors) (Agrees_initial actors) h
  have hfx : ∀ b, (s.Actors b).Class = (actors b).Class
      ∧ (s.Actors b).PrimaryActorTick.TickGroup = (actors b).PrimaryActorTick.TickGroup := hfx0
  constructor
  · intro r hr
    have hcalls : r.2 = (GetCompactLinearArrayFromContainers (s.table τ)).map
        (fun a => (a, dt)) := closure_call_calls tick s dt τ r hr
    have hfst : r.2.map Prod.fst = GetCompactLinearArrayFromContainers (s.table τ) := by
      rw [hcalls, List.map_map]
      have e : (Prod.fst ∘ fun a : ActorId => (a, dt)) = id := rfl
      rw [e, List.map_id]
    refine ⟨hcalls, ?_, ?_, ?_, ?_⟩
    · rw [hfst]
      exact (hI τ).nodup_compact
    · intro E
      rw [hfst, hA E τ, (hfx E).2]
    · intro c hc
      rw [hcalls] at hc
      obtain ⟨a, _, rfl⟩ := List.mem_map.1 hc
      rfl
    · rw [hcalls]
      apply ContiguousBy.map
      apply contiguous_compact _ _ (hI τ).classes
      intro c hc a ha
      rw [← (hfx a).1]
      exact ((hI τ).members c hc a ha).1
  · intro htick
    rw [closure_call_eq]
    exact TickActors_returns tick dt htick _ s []

theorem C6_phase_run_calls_witness :
    runCalls true (State.initial exampleActors) exampleCalls = .ok exampleState
      ∧ ((∀ r, ETable.PrePhysics.closure.call idleTick exampleState (7 : Nat) = .ok r →
          r.2 = (GetCompactLinearArrayFromContainers (exampleState.table .PrePhysics)).map
              (fun a => (a, 7))
            ∧ (r.2.map Prod.fst).Nodup
            ∧ (∀ E, E ∈ r.2.map Prod.fst
                ↔ ((SpecState.initial exampleActors).run exampleCalls).registered E = true
                  ∧ (exampleActors E).PrimaryActorTick.TickGroup = ETable.PrePhysics.group)
            ∧ (∀ c ∈ r.2, c.2 = 7)
            ∧ ContiguousBy (fun c : ActorId × Nat => (exampleActors c.1).Class) r.2)
        ∧ ((∀ a s0, ∃ s1, idleTick a (7 : Nat) s0 = .ok s1) →
            ∃ r, ETable.PrePhysics.closure.call idleTick exampleState (7 : Nat) = .ok r)) :=
  ⟨rfl, C6_phase_run_calls true exampleActors exampleCalls exampleState rfl .PrePhysics
    idleTick 7⟩

/-- C7. Snapshot semantics of a phase run. Take a state reached from the empty subsystem by
register and unregister calls, a set `τ`, update functions whose effect on the subsystem is to
unregister actors (`victims a` while actor `a` ticks), an actor E in the compacted output of
`τ`, and an actor T of that output whose update unregisters E (T may be E itself). A run of the
phase that returns has made exactly the calls of the output compacted before the first call, so
E is called exactly once in this run; afterwards E is not in the compacted output, and a run of
the same phase from the resulting state calls E zero times. The run returns when the build has
no `DO_CHECK` or all actors to unregister declare a tick group that has a set. -/
theorem C7_snapshot_semantics {F : Type} (chk : Bool) (actors : ActorId → AActor)
    (calls : List Call) (s : State)
    (h : runCalls chk (State.initial actors) calls = .ok s) (τ : ETable)
    (victims : ActorId → List ActorId) (T E : ActorId)
    (hT : T ∈ GetCompactLinearArrayFromContainers (s.table τ))
    (hE : E ∈ GetCompactLinearArrayFromContainers (s.table τ))
    (hv : E ∈ victims T) (dt : F) :
    (∀ r, τ.closure.call (unregisteringTick chk victims) s dt = .ok r →
        r.2 = (GetCompactLinearArrayFromContainers (s.table τ)).map (fun a => (a, dt))
          ∧ (r.2.map Prod.fst).count E = 1
          ∧ E ∉ GetCompactLinearArrayFromContainers (r.1.table τ)
          ∧ ∀ (tick2 : ActorId → F → State → Except Fault State) (dt2 : F)
              (r2 : State × List (ActorId × F)),
              τ.closure.call tick2 r.1 dt2 = .ok r2 → (r2.2.map Prod.fst).count E = 0)
      ∧ ((chk = false
            ∨ ∀ a v, v ∈ victims a → tableOf (actors v).PrimaryActorTick.TickGroup ≠ none) →
          ∃ r, τ.closure.call (unregisteringTick chk victims) s dt = .ok r) := by
  obtain ⟨hI, _, hfx⟩ :=
    runCalls_invariants chk calls _ s _ (Inv_initial actors) (Agrees_initial actors) h
  have hfst : ∀ (l : List ActorId) (d : F), (l.map (fun a => (a, d))).map Prod.fst = l := by
    intro l d
    rw [List.map_map]
    have e : (Prod.fst ∘ fun a : ActorId => (a, d)) = id := rfl
    rw [e, List.map_id]
  constructor
  · intro r hr
    have hcalls : r.2 = (GetCompactLinearArrayFromContainers (s.table τ)).map
        (fun a => (a, dt)) := closure_call_calls _ s dt τ r hr
    rw [closure_call_eq] at hr
    obtain ⟨_, _, hmem⟩ := TickActors_unregistering chk victims dt _ s [] r hI hr
    have hgone : E ∉ GetCompactLinearArrayFromContainers (r.1.table τ) := by
      rw [hmem]
      rintro ⟨_, hall⟩
      exact hall T hT hv
    refine ⟨hcalls, ?_, hgone, ?_⟩
    · rw [hcalls, hfst]
      exact List.count_eq_one_of_mem (hI τ).nodup_compact hE
    · intro tick2 dt2 r2 hr2
      have hcalls2 : r2.2 = (GetCompactLinearArrayFromContainers (r.1.table τ)).map
          (fun a => (a, dt2)) := closure_call_calls _ r.1 dt2 τ r2 hr2
      rw [hcalls2, hfst]
      exact List.count_eq_zero_of_not_mem hgone
  · intro hret
    rw [closure_call_eq]
    have hret1 : chk = false ∨ ∀ a v, v ∈ victims a → tableOf (s.tickGroupOf v) ≠ none := by
      rcases hret with hret | hret
      · exact Or.inl hret
      · refine Or.inr (fun a v hav => ?_)
        have e : s.tickGroupOf v = (actors v).PrimaryActorTick.TickGroup := (hfx v).2
        rw [e]
        exact hret a v hav
    obtain ⟨r, hr, _⟩ := TickActors_unregistering_returns chk victims dt (s.compact τ) s [] hret1
    exact ⟨r, hr⟩

theorem C7_snapshot_semantics_witness :
    runCalls true (State.initial exampleActors) exampleCalls = .ok exampleState
      ∧ 1 ∈ GetCompactLinearArrayFromContainers (exampleState.table .PrePhysics)
      ∧ 1 ∈ exampleVictims 1
      ∧ ((∀ r, ETable.PrePhysics.closure.call (unregisteringTick true exampleVictims)
              exampleState (7 : Nat) = .ok r →
          r.2 = (GetCompactLinearArrayFromContainers (exampleState.table .PrePhysics)).map
              (fun a => (a, 7))
            ∧ (r.2.map Prod.fst).count 1 = 1
            ∧ 1 ∉ GetCompactLinearArrayFromContainers (r.1.table .PrePhysics)
            ∧ ∀ (tick2 : ActorId → Nat → State → Except Fault State) (dt2 : Nat)
                (r2 : State × List (ActorId × Nat)),
                ETable.PrePhysics.closure.call tick2 r.1 dt2 = .ok r2 →
                  (r2.2.map Prod.fst).count 1 = 0)
        ∧ ((true = false
              ∨ ∀ a v, v ∈ exampleVictims a →
                  tableOf (exampleActors v).PrimaryActorTick.TickGroup ≠ none) →
            ∃ r, ETable.PrePhysics.closure.call (unregisteringTick true exampleVictims)
              exampleState (7 : Nat) = .ok r)) :=
  ⟨rfl, by decide, by decide,
    C7_snapshot_semantics true exampleActors exampleCalls exampleState rfl .PrePhysics
      exampleVictims 1 1 (by decide) (by decide) (by decide) 7⟩

/-- C8 (as stated, fails). Actor 6 of the example world is in no group of any set of the empty
subsystem and declares `TG_StartPhysics`; in a build with `DO_CHECK`, `UnregisterActor` on it
stops in `checkNoEntry()` of `FindContainer`. -/
theorem C8_counterexample :
    (∀ τ, 6 ∉ GetCompactLinearArrayFromContainers ((State.initial exampleActors).table τ))
      ∧ UnregisterActor true (State.initial exampleActors) (some 6)
          = .error .checkNoEntry := by
  constructor
  · intro τ
    cases τ <;> simp [State.initial, State.table, GetCompactLinearArrayFromContainers]
  · exact RemoveFromContainer_noTable true _ 6 (by decide)

/-- C8 (amended). For every state and every actor E that is in no group of any set, when the
tick group of E is one of the four that have a set, or the build has no `DO_CHECK`:
`UnregisterActor(E)` returns without a fault and returns the state it was given, whether or not
a group for E's class exists. All four sets, and so every compacted output, are as before. -/
theorem C8_unregister_absent_is_noop (chk : Bool) (s : State) (E : ActorId)
    (hE : ∀ τ, E ∉ GetCompactLinearArrayFromContainers (s.table τ))
    (hg : chk = false ∨ tableOf (s.Actors E).PrimaryActorTick.TickGroup ≠ none) :
    UnregisterActor chk s (some E) = .ok s := by
  unfold UnregisterActor
  cases hτ : tableOf (s.tickGroupOf E) with
  | some τ =>
    rw [RemoveFromContainer_table chk s E hτ, eraseActor_of_absent _ _ _ _ (hE τ),
      setTable_table_self]
  | none =>
    rcases hg with hg | hg
    · subst hg
      rw [RemoveFromContainer_noTable false s E hτ]
      rfl
    · exact absurd hτ hg

theorem C8_unregister_absent_is_noop_witness :
    UnregisterActor true (State.initial exampleActors) (some 1)
      = .ok (State.initial exampleActors) :=
  C8_unregister_absent_is_noop true (State.initial exampleActors) 1
    (by
      intro τ
      cases τ <;> simp [State.initial, State.table, GetCompactLinearArrayFromContainers])
    (Or.inr (by decide))

/-- C9. `UnregisterActor` is idempotent: for every state (also one in which E occurs several
times in its group) and every actor pointer E, calling it twice in a row has the outcome of
calling it once: the same state, or the same fault. -/
theorem C9_unregister_idempotent (chk : Bool) (s : State) (E : AActorPtr) :
    (match UnregisterActor chk s E with
      | .error e => .error e
      | .ok s1 => UnregisterActor chk s1 E)
      = UnregisterActor chk s E := by
  unfold UnregisterActor
  cases E with
  | none => rfl
  | some a =>
    cases hτ : tableOf (s.tickGroupOf a) with
    | some τ =>
      rw [RemoveFromContainer_table chk s a hτ]
      have hτ1 : tableOf ((s.setTable τ
          ((s.table τ).eraseActor (s.Actors a).Class τ.group a)).tickGroupOf a) = some τ := by
        simpa [State.tickGroupOf] using hτ
      simp only []
      rw [RemoveFromContainer_table chk _ a hτ1]
      simp [eraseActor_eraseActor, setTable_setTable]
    | none =>
      rw [RemoveFromContainer_noTable chk s a hτ]
      cases chk
      · simp only [Bool.false_eq_true, if_false]
        rw [RemoveFromContainer_noTable false s a hτ]
        rfl
      · rfl

/-- C10. Round trip. For every state (reachable or not) and every actor E with both flags set
that is in no group of any set: when `RegisterActor(E)` and then `UnregisterActor(E)` return,
the compacted output of every set is what it was before, E is in none of them, and every set
is either unchanged or, for the set of E's tick group when it had no group of E's class, the
old set followed by one new empty group of E's class; the groups that existed keep their
actors in the same order. Both calls return when the build has no `DO_CHECK` or the tick group
of E has a set. -/
theorem C10_register_unregister_round_trip (chk : Bool) (s : State) (E : ActorId)
    (hCan : (s.Actors E).PrimaryActorTick.bCanEverTick = true)
    (hStart : (s.Actors E).PrimaryActorTick.bStartWithTickEnabled = true)
    (hE : ∀ τ, E ∉ GetCompactLinearArrayFromContainers (s.table τ)) :
    (∀ s1 s2, RegisterActor chk s (some E) = .ok s1 → UnregisterActor chk s1 (some E) = .ok s2 →
        ∀ τ, GetCompactLinearArrayFromContainers (s2.table τ)
              = GetCompactLinearArrayFromContainers (s.table τ)
          ∧ E ∉ GetCompactLinearArrayFromContainers (s2.table τ)
          ∧ (s2.table τ = s.table τ
              ∨ (tableOf (s.Actors E).PrimaryActorTick.TickGroup = some τ
                  ∧ TSet.Find (s.table τ)
                      { ActorClass := (s.Actors E).Class, TickGroup := τ.group } = none
                  ∧ s2.table τ = s.table τ
                      ++ [{ ActorClass := (s.Actors E).Class, TickGroup := τ.group,
                            Actors := [] }])))
      ∧ ((chk = false ∨ tableOf (s.Actors E).PrimaryActorTick.TickGroup ≠ none) →
          ∃ s1 s2, RegisterActor chk s (some E) = .ok s1
            ∧ UnregisterActor chk s1 (some E) = .ok s2) := by
  have he : (s.Actors E).eligible = true := (eligible_iff _).2 ⟨hCan, hStart⟩
  have hshape : ∀ s1 s2, RegisterActor chk s (some E) = .ok s1 →
      UnregisterActor chk s1 (some E) = .ok s2 →
      ∀ τ, s2.table τ = s.table τ
        ∨ (tableOf (s.Actors E).PrimaryActorTick.TickGroup = some τ
            ∧ TSet.Find (s.table τ)
                { ActorClass := (s.Actors E).Class, TickGroup := τ.group } = none
            ∧ s2.table τ = s.table τ
                ++ [{ ActorClass := (s.Actors E).Class, TickGroup := τ.group, Actors := [] }]) := by
    intro s1 s2 h1 h2 τ
    have hfx := RegisterActor_fixed chk s s1 E h1 E
    rcases RegisterActor_cases chk s s1 E h1 with ⟨he0, _⟩ | ⟨_, ρ, hρ, rfl⟩ | ⟨_, hnone, rfl⟩
    · rw [he] at he0
      cases he0
    · have hρ1 : tableOf ((s.afterRegister E ρ).tickGroupOf E) = some ρ := by
        rw [State.tickGroupOf, hfx.2]
        exact hρ
      rcases UnregisterActor_cases chk _ s2 E h2 with ⟨ρ1, hρ2, rfl⟩ | ⟨hn, _⟩
      · have : ρ1 = ρ := by
          rw [hρ1] at hρ2
          exact (Option.some.inj hρ2).symm
        subst this
        simp only [table_setTable, table_afterRegister]
        by_cases hτ : τ = ρ1
        · subst hτ
          simp only [if_true, hfx.1]
          rw [erase_insert_of_absent _ _ _ _ (hE τ)]
          cases hf : TSet.Find (s.table τ)
              { ActorClass := (s.Actors E).Class, TickGroup := τ.group } with
          | some i => exact Or.inl (by simp)
          | none => exact Or.inr ⟨hρ, rfl, by simp⟩
        · simp [hτ]
      · rw [hρ1] at hn
        cases hn
    · have hn1 : tableOf ((s.setActor E (s.Actors E).registered).tickGroupOf E) = none := by
        rw [State.tickGroupOf, hfx.2]
        exact hnone
      rcases UnregisterActor_cases chk _ s2 E h2 with ⟨ρ1, hρ2, _⟩ | ⟨_, rfl⟩
      · rw [hn1] at hρ2
        cases hρ2
      · exact Or.inl (by simp)
  constructor
  · intro s1 s2 h1 h2 τ
    have hs := hshape s1 s2 h1 h2 τ
    have hc : GetCompactLinearArrayFromContainers (s2.table τ)
        = GetCompactLinearArrayFromContainers (s.table τ) := by
      rcases hs with hs | ⟨_, _, hs⟩
      · rw [hs]
      · rw [hs]
        simp [compact_eq_flatten]
    exact ⟨hc, by rw [hc]; exact hE τ, hs⟩
  · intro hret
    obtain ⟨s1, h1⟩ := RegisterActor_returns chk s E hret
    have hfx := RegisterActor_fixed chk s s1 E h1 E
    have hret1 : chk = false ∨ tableOf (s1.tickGroupOf E) ≠ none := by
      rcases hret with hret | hret
      · exact Or.inl hret
      · refine Or.inr ?_
        rw [State.tickGroupOf, hfx.2]
        exact hret
    obtain ⟨s2, h2⟩ := UnregisterActor_returns chk s1 E hret1
    exact ⟨s1, s2, h1, h2⟩

theorem C10_register_unregister_round_trip_witness :
    (∀ s1 s2, RegisterActor true (State.initial exampleActors) (some 5) = .ok s1 →
        UnregisterActor true s1 (some 5) = .ok s2 →
        ∀ τ, GetCompactLinearArrayFromContainers (s2.table τ)
              = GetCompactLinearArrayFromContainers ((State.initial exampleActors).table τ)
          ∧ 5 ∉ GetCompactLinearArrayFromContainers (s2.table τ)
          ∧ (s2.table τ = (State.initial exampleActors).table τ
              ∨ (tableOf ((State.initial exampleActors).Actors 5).PrimaryActorTick.TickGroup
                    = some τ
                  ∧ TSet.Find ((State.initial exampleActors).table τ)
                      { ActorClass := ((State.initial exampleActors).Actors 5).Class,
                        TickGroup := τ.group } = none
                  ∧ s2.table τ = (State.initial exampleActors).table τ
                      ++ [{ ActorClass := ((State.initial exampleActors).Actors 5).Class,
                            TickGroup := τ.group, Actors := [] }])))
      ∧ ((true = false
            ∨ tableOf ((State.initial exampleActors).Actors 5).PrimaryActorTick.TickGroup ≠ none) →
          ∃ s1 s2, RegisterActor true (State.initial exampleActors) (some 5) = .ok s1
            ∧ UnregisterActor true s1 (some 5) = .ok s2) :=
  C10_register_unregister_round_trip true (State.initial exampleActors) 5 (by decide)
    (by decide)
    (by
      intro τ
      cases τ <;> simp [State.initial, State.table, GetCompactLinearArrayFromContainers])

/-- C11 (as stated, fails). In the empty subsystem of the example world, actor 0 is eligible and
ticks before physics. Two calls of `RegisterActor` in a row both return; the second returns the
state it was given, the compacted output of the set before physics holds actor 0 once, and a
run of that phase calls actor 0 once. -/
theorem C11_counterexample :
    (exampleActors 0).eligible = true
      ∧ ∃ s1, RegisterActor true (State.initial exampleActors) (some 0) = .ok s1
          ∧ RegisterActor true s1 (some 0) = .ok s1
          ∧ GetCompactLinearArrayFromContainers (s1.table .PrePhysics) = [0]
          ∧ ∃ s2, ETable.PrePhysics.closure.call idleTick s1 (7 : Nat) = .ok (s2, [(0, 7)]) := by
  refine ⟨by decide, (State.initial exampleActors).afterRegister 0 .PrePhysics, ?_, ?_, ?_, ?_⟩
  · exact RegisterActor_table true _ 0 (by decide) (by decide)
  · exact RegisterActor_rejected true _ 0 (by decide)
  · decide
  · refine ⟨(State.initial exampleActors).afterRegister 0 .PrePhysics, ?_⟩
    rw [closure_call_eq]
    have h : ((State.initial exampleActors).afterRegister 0 .PrePhysics).compact .PrePhysics
        = [0] := by decide
    rw [h]
    rfl

/-- C11 (amended). The eligibility check of `RegisterActor` guards against a second
registration: for every state and every actor E with both flags set whose tick group has the
set `τ`, the first `RegisterActor(E)` returns a state in which a second `RegisterActor(E)` is
rejected and returns that same state. So two calls in a row add E to the compacted output of
`τ` exactly once, and a run of the phase calls E once more than E occurred before: once when
E was not registered. -/
theorem C11_second_register_is_rejected {F : Type} (chk : Bool) (s : State) (E : ActorId)
    (τ : ETable)
    (hCan : (s.Actors E).PrimaryActorTick.bCanEverTick = true)
    (hStart : (s.Actors E).PrimaryActorTick.bStartWithTickEnabled = true)
    (hτ : tableOf (s.Actors E).PrimaryActorTick.TickGroup = some τ) :
    ∃ s1, RegisterActor chk s (some E) = .ok s1
      ∧ RegisterActor chk s1 (some E) = .ok s1
      ∧ (GetCompactLinearArrayFromContainers (s1.table τ)).count E
          = (GetCompactLinearArrayFromContainers (s.table τ)).count E + 1
      ∧ ∀ (tick : ActorId → F → State → Except Fault State) (dt : F)
          (r : State × List (ActorId × F)),
          τ.closure.call tick s1 dt = .ok r →
            (r.2.map Prod.fst).count E
              = (GetCompactLinearArrayFromContainers (s.table τ)).count E + 1 := by
  have he : (s.Actors E).eligible = true := (eligible_iff _).2 ⟨hCan, hStart⟩
  have hcount : (GetCompactLinearArrayFromContainers ((s.afterRegister E τ).table τ)).count E
      = (GetCompactLinearArrayFromContainers (s.table τ)).count E + 1 := by
    rw [table_afterRegister, if_pos rfl, count_compact_insertActor]
  refine ⟨s.afterRegister E τ, RegisterActor_table chk s E he hτ, ?_, hcount, ?_⟩
  · apply RegisterActor_rejected
    simp [(registered_fields (s.Actors E)).2.2]
  · intro tick dt r hr
    rw [closure_call_count tick _ dt τ r hr, hcount]

theorem C11_second_register_is_rejected_witness :
    ∃ s1, RegisterActor true (State.initial exampleActors) (some 0) = .ok s1
      ∧ RegisterActor true s1 (some 0) = .ok s1
      ∧ (GetCompactLinearArrayFromContainers (s1.table .PrePhysics)).count 0
          = (GetCompactLinearArrayFromContainers
              ((State.initial exampleActors).table .PrePhysics)).count 0 + 1
      ∧ ∀ (tick : ActorId → Nat → State → Except Fault State) (dt : Nat)
          (r : State × List (ActorId × Nat)),
          ETable.PrePhysics.closure.call tick s1 dt = .ok r →
            (r.2.map Prod.fst).count 0
              = (GetCompactLinearArrayFromContainers
                  ((State.initial exampleActors).table .PrePhysics)).count 0 + 1 :=
  C11_second_register_is_rejected true (State.initial exampleActors) 0 .PrePhysics
    (by decide) (by decide) (by decide)

/-- C12 (as stated, fails). After `Deinitialize` in the example state the set before physics
still holds its two groups, and its compacted output still lists the five registered actors. -/
theorem C12_counterexample :
    ( Deinitialize exampleState).PrePhysicsContainers
        = [{ ActorClass := 10, TickGroup := TG_PrePhysics, Actors := [0, 1, 2] },
           { ActorClass := 20, TickGroup := TG_PrePhysics, Actors := [3, 4] }]
      ∧ GetCompactLinearArrayFromContainers (( Deinitialize exampleState).table .PrePhysics)
          = [0, 1, 2, 3, 4] := by
  constructor <;> decide

/-- C12 (amended). For every state, `Deinitialize` resets all four tick functions (not
registered, no bound closure, no owner) and leaves the four sets, and with them every compacted
output, and the actors as they were. -/
theorem C12_deinitialize_resets_tick_functions (s : State) :
    (∀ τ, (( Deinitialize s).tickFunction τ).bRegistered = false
        ∧ (( Deinitialize s).tickFunction τ).TickFunction = none
        ∧ (( Deinitialize s).tickFunction τ).Owner = false)
      ∧ (∀ τ, ( Deinitialize s).table τ = s.table τ)
      ∧ (∀ τ, GetCompactLinearArrayFromContainers (( Deinitialize s).table τ)
          = GetCompactLinearArrayFromContainers (s.table τ))
      ∧ ( Deinitialize s).Actors = s.Actors := by
  refine ⟨?_, ?_, ?_, rfl⟩
  · intro τ
    cases τ <;> exact ⟨rfl, rfl, rfl⟩
  · intro τ
    cases τ <;> rfl
  · intro τ
    cases τ <;> rfl

/-- C13 (the code at the failing input). In a world without a current level every `Init`
returns `false`, yet it has bound owner and closure before; `Initialize` ignores the returned
values and subscribes to the actors-initialised event. When that event fires, actor 0 is
registered: its two flags are cleared and it sits in the set before physics, while no tick
function is registered with a level to tick it. -/
theorem C13_initialize_without_level :
    (∀ (f : FTickAggregatorTickFunction) (g : ETickingGroup) (c : ETickClosure),
        f.Init true g (some levellessState.World) (some c)
          = .ok ({ f with TickGroup := g, Owner := true, TickFunction := some c }, false))
      ∧ ∃ s1, Initialize true levellessState = .ok s1
          ∧ (∀ τ, (s1.tickFunction τ).bRegistered = false
              ∧ (s1.tickFunction τ).TickFunction = some τ.closure
              ∧ (s1.tickFunction τ).Owner = true)
          ∧ s1.World.map (fun w => w.bOnActorsInitializedBound) = some true
          ∧ ∃ s2, OnActorsFinishedInitialise true s1 true = .ok s2
              ∧ (s2.Actors 0).PrimaryActorTick.bCanEverTick = false
              ∧ (s2.Actors 0).PrimaryActorTick.bStartWithTickEnabled = false
              ∧ GetCompactLinearArrayFromContainers (s2.table .PrePhysics) = [0]
              ∧ ∀ τ, (s2.tickFunction τ).bRegistered = false := by
  constructor
  · intro f g c
    rfl
  · refine ⟨_, rfl, ?_, rfl, ?_⟩
    · intro τ
      cases τ <;> exact ⟨rfl, rfl, rfl⟩
    · refine ⟨_, rfl, by decide, by decide, by decide, ?_⟩
      intro τ
      cases τ <;> rfl

/-- C14 (the code at the failing input). `IsActorRegistered` returns `false` for every state
and every actor pointer; in the example state actor 0 is in the group of its class in the set
of its tick group, and right after a successful `RegisterActor` the answer is `false` as
well. -/
theorem C14_IsActorRegistered_is_constant :
    (∀ (s : State) (E : AActorPtr), IsActorRegistered s E = false)
      ∧ runCalls true (State.initial exampleActors) exampleCalls = .ok exampleState
      ∧ TSet.Find (exampleState.table .PrePhysics)
          { ActorClass := (exampleState.Actors 0).Class,
            TickGroup := (exampleState.Actors 0).PrimaryActorTick.TickGroup } = some 0
      ∧ (exampleState.table .PrePhysics)[0]?
          = some { ActorClass := 10, TickGroup := TG_PrePhysics, Actors := [0, 1, 2] }
      ∧ IsActorRegistered exampleState (some 0) = false
      ∧ ∃ s1, RegisterActor true (State.initial exampleActors) (some 0) = .ok s1
          ∧ 0 ∈ GetCompactLinearArrayFromContainers (s1.table .PrePhysics)
          ∧ IsActorRegistered s1 (some 0) = false := by
  refine ⟨fun _ _ => rfl, rfl, by decide, by decide, rfl,
    (State.initial exampleActors).afterRegister 0 .PrePhysics, ?_, by decide, rfl⟩
  exact RegisterActor_table true _ 0 (by decide) (by decide)

/-- C15. Membership invariant. In every state reached from the empty subsystem by register and
unregister calls, no group lists an actor twice, and no actor occurs in two groups: when an
actor is in the group at position `i` of the set `τ` and in the group at position `j` of the
set `σ`, then `τ` and `σ` are the same set and `i` and `j` the same position. -/
theorem C15_membership_invariant (chk : Bool) (actors : ActorId → AActor) (calls : List Call)
    (s : State) (h : runCalls chk (State.initial actors) calls = .ok s) :
    (∀ τ, ∀ c ∈ s.table τ, c.Actors.Nodup)
      ∧ ∀ (τ σ : ETable) (i j : Nat) (c d : FTickAggregateContainer) (a : ActorId),
          (s.table τ)[i]? = some c → (s.table σ)[j]? = some d →
          a ∈ c.Actors → a ∈ d.Actors → τ = σ ∧ i = j := by
  have hI : s.Inv :=
    (runCalls_invariants chk calls _ s _ (Inv_initial actors) (Agrees_initial actors) h).1
  refine ⟨fun τ => (hI τ).nodup, ?_⟩
  intro τ σ i j c d a hi hj hac had
  have hc := (hI τ).members c (List.getElem?_mem hi) a hac
  have hd := (hI σ).members d (List.getElem?_mem hj) a had
  have hτσ : τ = σ := group_injective (hc.2.1.symm.trans hd.2.1)
  subst hτσ
  exact ⟨rfl, pairwise_class_index _ (hI τ).classes i j c d hi hj (hc.1.symm.trans hd.1)⟩

theorem C15_membership_invariant_witness :
    runCalls true (State.initial exampleActors) exampleCalls = .ok exampleState
      ∧ (∀ τ, ∀ c ∈ exampleState.table τ, c.Actors.Nodup)
      ∧ ∀ (τ σ : ETable) (i j : Nat) (c d : FTickAggregateContainer) (a : ActorId),
          (exampleState.table τ)[i]? = some c → (exampleState.table σ)[j]? = some d →
          a ∈ c.Actors → a ∈ d.Actors → τ = σ ∧ i = j :=
  ⟨rfl, C15_membership_invariant true exampleActors exampleCalls exampleState rfl⟩

/-- C16. Table invariant. In every state reached from the empty subsystem by calls of
`AddToContainer` and `RemoveFromContainer` (also repeated ones, and with null pointers), two
groups at different positions of the same set have different `ActorClass` values, and every
group of the set of a tick group carries that tick group. -/
theorem C16_table_invariant (chk : Bool) (actors : ActorId → AActor)
    (calls : List ContainerCall) (s : State)
    (h : runContainerCalls chk (State.initial actors) calls = .ok s) (τ : ETable) :
    (∀ (i j : Nat) (c d : FTickAggregateContainer),
        (s.table τ)[i]? = some c → (s.table τ)[j]? = some d → i ≠ j →
          c.ActorClass ≠ d.ActorClass)
      ∧ ∀ c ∈ s.table τ, c.TickGroup = τ.group := by
  have h0 : ∀ σ : ETable, KeyInv σ.group ((State.initial actors).table σ) := by
    intro σ
    have e : (State.initial actors).table σ = [] := by cases σ <;> rfl
    rw [e]
    exact ⟨by simp, List.Pairwise.nil⟩
  have hI := KeyInv_runContainerCalls chk calls _ s h0 h τ
  refine ⟨?_, hI.group⟩
  intro i j c d hi hj hij hcd
  exact hij (pairwise_class_index _ hI.classes i j c d hi hj hcd)

theorem C16_table_invariant_witness :
    runContainerCalls true (State.initial exampleActors) exampleContainerCalls
        = .ok exampleContainerState
      ∧ (∀ (i j : Nat) (c d : FTickAggregateContainer),
          (exampleContainerState.table .PrePhysics)[i]? = some c →
          (exampleContainerState.table .PrePhysics)[j]? = some d → i ≠ j →
            c.ActorClass ≠ d.ActorClass)
      ∧ ∀ c ∈ exampleContainerState.table .PrePhysics, c.TickGroup = ETable.PrePhysics.group :=
  ⟨rfl, C16_table_invariant true exampleActors exampleContainerCalls exampleContainerState rfl
    .PrePhysics⟩

/-- C17. Groups are never destroyed. For every state and every actor E: when `RegisterActor(E)`
returns, the list of group keys of every set is the old list followed by at most new keys;
when `UnregisterActor(E)` returns, the list of group keys of every set is the old list, and the
group that `FindContainer` finds for E, when it held no actor but E, stands at its position
with its key and an empty actor list. Both calls return when the build has no `DO_CHECK` or the
tick group of E has a set. -/
theorem C17_groups_are_never_removed (chk : Bool) (s : State) (E : ActorId) :
    (∀ s1, RegisterActor chk s (some E) = .ok s1 →
        ∀ τ, ∃ extra, (s1.table τ).map FTickAggregateContainer.key
          = (s.table τ).map FTickAggregateContainer.key ++ extra)
      ∧ (∀ s1, UnregisterActor chk s (some E) = .ok s1 →
          (∀ τ, (s1.table τ).map FTickAggregateContainer.key
            = (s.table τ).map FTickAggregateContainer.key)
          ∧ ∀ (τ : ETable) (i : Nat) (c : FTickAggregateContainer),
              tableOf (s.Actors E).PrimaryActorTick.TickGroup = some τ →
              TSet.Find (s.table τ)
                { ActorClass := (s.Actors E).Class, TickGroup := τ.group } = some i →
              (s.table τ)[i]? = some c → (∀ x ∈ c.Actors, x = E) →
              (s1.table τ)[i]? = some { c with Actors := [] })
      ∧ ((chk = false ∨ tableOf (s.Actors E).PrimaryActorTick.TickGroup ≠ none) →
          (∃ s1, RegisterActor chk s (some E) = .ok s1)
            ∧ ∃ s1, UnregisterActor chk s (some E) = .ok s1) := by
  refine ⟨?_, ?_, fun h => ⟨RegisterActor_returns chk s E h, UnregisterActor_returns chk s E h⟩⟩
  · intro s1 h τ
    rcases RegisterActor_cases chk s s1 E h with ⟨_, rfl⟩ | ⟨_, ρ, _, rfl⟩ | ⟨_, _, rfl⟩
    · exact ⟨[], by simp⟩
    · simp only [table_afterRegister]
      by_cases hτ : τ = ρ
      · subst hτ
        simp only [if_true]
        exact ⟨_, map_key_insertActor _ _ _ _⟩
      · simp only [hτ, if_false]
        exact ⟨[], by simp⟩
    · exact ⟨[], by simp⟩
  · intro s1 h
    rcases UnregisterActor_cases chk s s1 E h with ⟨ρ, hρ, rfl⟩ | ⟨hn, rfl⟩
    · constructor
      · intro τ
        simp only [table_setTable]
        by_cases hτ : τ = ρ
        · subst hτ
          simp only [if_true]
          exact map_key_eraseActor _ _ _ _
        · simp only [hτ, if_false]
      · intro τ i c hτ hf hc hall
        have e : τ = ρ := by
          have h1 : tableOf (s.tickGroupOf E) = some τ := hτ
          rw [hρ] at h1
          exact (Option.some.inj h1).symm
        subst e
        simp only [table_setTable, if_true]
        rw [getElem_eraseActor_found _ _ _ E i c hf hc, Remove_eq_nil hall]
    · constructor
      · intro τ
        rfl
      · intro τ i c hτ
        have h1 : tableOf (s1.tickGroupOf E) = some τ := hτ
        rw [hn] at h1
        cases h1

theorem C17_groups_are_never_removed_witness :
    (∀ s1, RegisterActor true exampleState (some 5) = .ok s1 →
        ∀ τ, ∃ extra, (s1.table τ).map FTickAggregateContainer.key
          = (exampleState.table τ).map FTickAggregateContainer.key ++ extra)
      ∧ (∀ s1, UnregisterActor true exampleState (some 5) = .ok s1 →
          (∀ τ, (s1.table τ).map FTickAggregateContainer.key
            = (exampleState.table τ).map FTickAggregateContainer.key)
          ∧ ∀ (τ : ETable) (i : Nat) (c : FTickAggregateContainer),
              tableOf (exampleState.Actors 5).PrimaryActorTick.TickGroup = some τ →
              TSet.Find (exampleState.table τ)
                { ActorClass := (exampleState.Actors 5).Class, TickGroup := τ.group } = some i →
              (exampleState.table τ)[i]? = some c → (∀ x ∈ c.Actors, x = 5) →
              (s1.table τ)[i]? = some { c with Actors := [] })
      ∧ ((true = false ∨ tableOf (exampleState.Actors 5).PrimaryActorTick.TickGroup ≠ none) →
          (∃ s1, RegisterActor true exampleState (some 5) = .ok s1)
            ∧ ∃ s1, UnregisterActor true exampleState (some 5) = .ok s1) :=
  C17_groups_are_never_removed true exampleState 5

/-- C18 (as stated, fails). Two containers of the same class, one of the tick group before
physics and one of the tick group after physics: the classes are equal and `operator==` is
false. -/
theorem C18_counterexample :
    (FTickAggregateContainer.mk 1 TG_PrePhysics []).ActorClass
        = (FTickAggregateContainer.mk 1 TG_PostPhysics []).ActorClass
      ∧ (FTickAggregateContainer.mk 1 TG_PrePhysics []).opEq
          (FTickAggregateContainer.mk 1 TG_PostPhysics []) = false := by
  decide

/-- C18 (amended). For every two containers a and b, `a == b` holds if and only if both
`ActorClass` and `TickGroup` are equal, so for containers of one tick group (those of one set)
it holds if and only if the classes are equal; `GetTypeHash(a)` is the hash of `a.ActorClass`
alone, so containers of equal class, and with them equal keys, have equal hashes. -/
theorem C18_key_equality_and_hash (hashName : FName → Nat) (a b : FTickAggregateContainer) :
    (a.opEq b = true ↔ a.ActorClass = b.ActorClass ∧ a.TickGroup = b.TickGroup)
      ∧ (a.TickGroup = b.TickGroup → (a.opEq b = true ↔ a.ActorClass = b.ActorClass))
      ∧ a.GetTypeHash hashName = hashName a.ActorClass
      ∧ (a.ActorClass = b.ActorClass → a.GetTypeHash hashName = b.GetTypeHash hashName)
      ∧ (a.opEq b = true → a.GetTypeHash hashName = b.GetTypeHash hashName) := by
  have h1 : a.opEq b = true ↔ a.ActorClass = b.ActorClass ∧ a.TickGroup = b.TickGroup := by
    simp [FTickAggregateContainer.opEq]
  refine ⟨h1, ?_, rfl, ?_, ?_⟩
  · intro hg
    rw [h1]
    exact ⟨fun h => h.1, fun h => ⟨h, hg⟩⟩
  · intro hc
    simp [FTickAggregateContainer.GetTypeHash, hc]
  · intro he
    simp [FTickAggregateContainer.GetTypeHash, (h1.1 he).1]

theorem C18_key_equality_and_hash_witness :
    ((FTickAggregateContainer.mk 1 TG_PrePhysics [0]).opEq
          (FTickAggregateContainer.mk 1 TG_PrePhysics [2]) = true
        ↔ (FTickAggregateContainer.mk 1 TG_PrePhysics [0]).ActorClass
            = (FTickAggregateContainer.mk 1 TG_PrePhysics [2]).ActorClass
          ∧ (FTickAggregateContainer.mk 1 TG_PrePhysics [0]).TickGroup
            = (FTickAggregateContainer.mk 1 TG_PrePhysics [2]).TickGroup)
      ∧ ((FTickAggregateContainer.mk 1 TG_PrePhysics [0]).TickGroup
            = (FTickAggregateContainer.mk 1 TG_PrePhysics [2]).TickGroup →
          ((FTickAggregateContainer.mk 1 TG_PrePhysics [0]).opEq
              (FTickAggregateContainer.mk 1 TG_PrePhysics [2]) = true
            ↔ (FTickAggregateContainer.mk 1 TG_PrePhysics [0]).ActorClass
              = (FTickAggregateContainer.mk 1 TG_PrePhysics [2]).ActorClass))
      ∧ (FTickAggregateContainer.mk 1 TG_PrePhysics [0]).GetTypeHash (fun n => n % 7)
          = (fun n => n % 7) (FTickAggregateContainer.mk 1 TG_PrePhysics [0]).ActorClass
      ∧ ((FTickAggregateContainer.mk 1 TG_PrePhysics [0]).ActorClass
            = (FTickAggregateContainer.mk 1 TG_PrePhysics [2]).ActorClass →
          (FTickAggregateContainer.mk 1 TG_PrePhysics [0]).GetTypeHash (fun n => n % 7)
            = (FTickAggregateContainer.mk 1 TG_PrePhysics [2]).GetTypeHash (fun n => n % 7))
      ∧ ((FTickAggregateContainer.mk 1 TG_PrePhysics [0]).opEq
            (FTickAggregateContainer.mk 1 TG_PrePhysics [2]) = true →
          (FTickAggregateContainer.mk 1 TG_PrePhysics [0]).GetTypeHash (fun n => n % 7)
            = (FTickAggregateContainer.mk 1 TG_PrePhysics [2]).GetTypeHash (fun n => n % 7)) :=
  C18_key_equality_and_hash (fun n => n % 7) (FTickAggregateContainer.mk 1 TG_PrePhysics [0])
    (FTickAggregateContainer.mk 1 TG_PrePhysics [2])

/-- C19. Registration is one-shot per actor. Take any state, an actor E with both flags set, a
state in which `RegisterActor(E)` has returned, and any later sequence of calls of members of
the subsystem that returns (register and unregister calls for any actor, E included, the
container members, initialisation, the actors-initialised event, end of play, phase runs,
deinitialisation). Then both flags of E are still false, a further `RegisterActor(E)` is
rejected and returns the state it was given, so the four sets and the flags stay as they are,
and no flag of any actor that was false before the sequence is true after it. -/
theorem C19_registration_is_one_shot (chk : Bool) (s s1 s2 : State) (E : ActorId)
    (calls : List SubsystemCall)
    (hCan : (s.Actors E).PrimaryActorTick.bCanEverTick = true)
    (hStart : (s.Actors E).PrimaryActorTick.bStartWithTickEnabled = true)
    (h1 : RegisterActor chk s (some E) = .ok s1)
    (h2 : runSubsystemCalls chk s1 calls = .ok s2) :
    (s2.Actors E).PrimaryActorTick.bCanEverTick = false
      ∧ (s2.Actors E).PrimaryActorTick.bStartWithTickEnabled = false
      ∧ RegisterActor chk s2 (some E) = .ok s2
      ∧ NoFlagRaised s1 s2 := by
  obtain ⟨c1, c2⟩ :=
    RegisterActor_clears_flags chk s s1 E ((eligible_iff _).2 ⟨hCan, hStart⟩) h1
  have hmono := NoFlagRaised_runSubsystemCalls chk calls s1 s2 h2
  have hc : (s2.Actors E).PrimaryActorTick.bCanEverTick = false := by
    cases hv : (s2.Actors E).PrimaryActorTick.bCanEverTick with
    | false => rfl
    | true =>
      have := (hmono E).1 hv
      rw [c1] at this
      cases this
  refine ⟨hc, ?_, ?_, hmono⟩
  · cases hv : (s2.Actors E).PrimaryActorTick.bStartWithTickEnabled with
    | false => rfl
    | true =>
      have h3 := (hmono E).2 hv
      rw [c2] at h3
      cases h3
  · apply RegisterActor_rejected
    simp [AActor.eligible, hc]

theorem C19_registration_is_one_shot_witness :
    (exampleWorldState.Actors 0).PrimaryActorTick.bCanEverTick = true
      ∧ (exampleWorldState.Actors 0).PrimaryActorTick.bStartWithTickEnabled = true
      ∧ RegisterActor true exampleWorldState (some 0) = .ok exampleRegisteredState
      ∧ runSubsystemCalls true exampleRegisteredState exampleLaterCalls = .ok exampleLaterState
      ∧ (exampleLaterState.Actors 0).PrimaryActorTick.bCanEverTick = false
      ∧ (exampleLaterState.Actors 0).PrimaryActorTick.bStartWithTickEnabled = false
      ∧ RegisterActor true exampleLaterState (some 0) = .ok exampleLaterState
      ∧ NoFlagRaised exampleRegisteredState exampleLaterState :=
  ⟨by decide, by decide, rfl, rfl,
    C19_registration_is_one_shot true exampleWorldState exampleRegisteredState
      exampleLaterState 0 exampleLaterCalls (by decide) (by decide) rfl rfl⟩

/-- C20. Assertion reachability. For every state and every non-null actor with tick group `g`:
with `DO_CHECK`, `FindContainer`, `AddToContainer` and `RemoveFromContainer` stop in
`checkNoEntry()` if and only if `g` has no set; without `DO_CHECK`, `AddToContainer` falls
through the default branch of its own switch, returning the state unchanged, if and only if `g`
has no set; and `g` has no set if and only if it is none of `TG_PrePhysics`,
`TG_DuringPhysics`, `TG_PostPhysics`, `TG_PostUpdateWork`. For a tick group with the set `τ`
the two switches agree: `FindContainer` searches `τ`, and when it finds no group there,
`AddToContainer` appends the new group to `τ`, leaves the other sets alone, and `FindContainer`
then finds the new group in `τ`. -/
theorem C20_assertion_reachability (s : State) (a : ActorId) :
    (FindContainer true s (s.Actors a).Class (s.Actors a).PrimaryActorTick.TickGroup
          = .error .checkNoEntry
        ↔ tableOf (s.Actors a).PrimaryActorTick.TickGroup = none)
      ∧ (AddToContainer true s (some a) = .error .checkNoEntry
        ↔ tableOf (s.Actors a).PrimaryActorTick.TickGroup = none)
      ∧ (RemoveFromContainer true s (some a) = .error .checkNoEntry
        ↔ tableOf (s.Actors a).PrimaryActorTick.TickGroup = none)
      ∧ (AddToContainer false s (some a) = .ok s
        ↔ tableOf (s.Actors a).PrimaryActorTick.TickGroup = none)
      ∧ (tableOf (s.Actors a).PrimaryActorTick.TickGroup = none
        ↔ (s.Actors a).PrimaryActorTick.TickGroup ≠ TG_PrePhysics
          ∧ (s.Actors a).PrimaryActorTick.TickGroup ≠ TG_DuringPhysics
          ∧ (s.Actors a).PrimaryActorTick.TickGroup ≠ TG_PostPhysics
          ∧ (s.Actors a).PrimaryActorTick.TickGroup ≠ TG_PostUpdateWork)
      ∧ ∀ (chk : Bool) (τ : ETable),
          tableOf (s.Actors a).PrimaryActorTick.TickGroup = some τ →
          FindContainer chk s (s.Actors a).Class (s.Actors a).PrimaryActorTick.TickGroup
              = .ok ((TSet.Find (s.table τ)
                  { ActorClass := (s.Actors a).Class, TickGroup := τ.group }).map
                    (ContainerPtr.mk τ))
            ∧ (TSet.Find (s.table τ)
                  { ActorClass := (s.Actors a).Class, TickGroup := τ.group } = none →
                ∃ s1, AddToContainer chk s (some a) = .ok s1
                  ∧ s1.table τ = s.table τ
                      ++ [{ ActorClass := (s.Actors a).Class, TickGroup := τ.group,
                            Actors := [a] }]
                  ∧ (∀ σ, σ ≠ τ → s1.table σ = s.table σ)
                  ∧ FindContainer chk s1 (s1.Actors a).Class
                      (s1.Actors a).PrimaryActorTick.TickGroup
                        = .ok (some { Table := τ, Index := (s.table τ).length })) := by
  refine ⟨?_, ?_, ?_, ?_, tableOf_eq_none_iff_not_phase _, ?_⟩
  · cases hτ : tableOf (s.Actors a).PrimaryActorTick.TickGroup with
    | none => simp [FindContainer_noTable true s _ hτ]
    | some τ =>
      rw [← tableOf_eq_some.1 hτ, FindContainer_table]
      simp
  · cases hτ : tableOf (s.Actors a).PrimaryActorTick.TickGroup with
    | none => simp [AddToContainer_noTable true s a hτ]
    | some τ => simp [AddToContainer_table true s a hτ]
  · cases hτ : tableOf (s.Actors a).PrimaryActorTick.TickGroup with
    | none => simp [RemoveFromContainer_noTable true s a hτ]
    | some τ => simp [RemoveFromContainer_table true s a hτ]
  · cases hτ : tableOf (s.Actors a).PrimaryActorTick.TickGroup with
    | none => simp [AddToContainer_noTable false s a hτ]
    | some τ =>
      rw [AddToContainer_table false s a hτ]
      simp only [Except.ok.injEq, reduceCtorEq, iff_false]
      intro he
      have h1 := congrArg (fun x : State => (GetCompactLinearArrayFromContainers
        (x.table τ)).count a) he
      simp only [table_setTable, if_true, count_compact_insertActor] at h1
      omega
  · intro chk τ hτ
    have hg : (s.Actors a).PrimaryActorTick.TickGroup = τ.group := (tableOf_eq_some.1 hτ).symm
    refine ⟨by rw [hg, FindContainer_table], ?_⟩
    intro hf
    refine ⟨_, AddToContainer_table chk s a hτ, ?_, ?_, ?_⟩
    · simp [insertActor_of_not_found _ _ _ _ hf]
    · intro σ hσ
      simp [hσ]
    · simp only [Actors_setTable, hg, FindContainer_table, table_setTable, if_true,
        insertActor_of_not_found _ _ _ _ hf]
      rw [Find_append_new _ _ _ hf (by simp [FTickAggregateContainer.opEq])]
      rfl

theorem C20_assertion_reachability_witness :
    ∃ s1, AddToContainer true (State.initial exampleActors) (some 5) = .ok s1
      ∧ s1.table .PostPhysics = (State.initial exampleActors).table .PostPhysics
          ++ [{ ActorClass := ((State.initial exampleActors).Actors 5).Class,
                TickGroup := ETable.PostPhysics.group, Actors := [5] }]
      ∧ (∀ σ, σ ≠ ETable.PostPhysics → s1.table σ = (State.initial exampleActors).table σ)
      ∧ FindContainer true s1 (s1.Actors 5).Class (s1.Actors 5).PrimaryActorTick.TickGroup
          = .ok (some { Table := .PostPhysics,
                        Index := ((State.initial exampleActors).table .PostPhysics).length }) :=
  ((C20_assertion_reachability (State.initial exampleActors) 5).2.2.2.2.2 true .PostPhysics
    (by decide)).2 (by decide)

end TickAggregator
